import Mathlib

/-!
SST core: partitioning-and-wireup setup.

A shallow embedding of `main` up to the end of its setup block and of
`dump_partition` (src/sst/core/main.cc), of the identity registry
`ComponentInfoMap` (src/src/sst/core/componentInfo.h) and of the rank-slice
partitioner declared in src/src/sst/core/part/linpart.h.

Conventions.
* `ComponentId_t`, `LinkId_t` and `SimTime_t` are 64-bit unsigned in the source and
  natural numbers here; no arithmetic is performed on them by the embedded code, so
  the only place where the width matters (the initial value of `min_part`) carries
  the constant `2^64 - 1` explicitly.
* The `rank` of a component is a C `int`; it is an `Int` here because `-1` is used as the
  "unassigned" value.
* One process (one MPI rank) is modelled.  What the process does is recorded as a
  list of `Event`s in program order; console output and timing calls are not
  recorded.
* `Output::fatal` terminates the process: nothing follows a `fatal` event.
-/

namespace SST

abbrev ComponentId_t := Nat
abbrev LinkId_t := Nat
abbrev SimTime_t := Nat

/-! ## Configuration graph -/

/-- The fields of `ConfigComponent` that `main.cc` reads: `id`, `name`, `type`,
`weight`, `links` and `rank`.  The weight is a floating-point number in the
source; `main.cc` only writes it to the partition report, and it is kept as the
text that `<<` writes for it. -/
structure ConfigComponent where
  id : ComponentId_t
  name : String := ""
  type : String := ""
  weight : String := "1"
  links : List LinkId_t := []
  rank : Int := 0
deriving DecidableEq, Repr

/-- The parts of `ConfigLink` that `main.cc` reads: the two endpoint component
identifiers `component[0]`, `component[1]` and the value returned by
`getMinLatency()`. -/
structure ConfigLink where
  component0 : ComponentId_t
  component1 : ComponentId_t
  minLatency : SimTime_t
deriving DecidableEq, Repr

/-- The value `clink.getMinLatency()`; the declaration of `ConfigLink` is in
configGraph.h, so the returned value is carried by the link. -/
def ConfigLink.getMinLatency (clink : ConfigLink) : SimTime_t := clink.minLatency

/-- A `ConfigGraph`: its component map (`getComponentMap()`, in iteration order)
and its link map (`getLinkMap()`, in iteration order). -/
structure ConfigGraph where
  comps : List ConfigComponent := []
  links : List ConfigLink := []
deriving DecidableEq, Repr

/-- The rank value that marks a component as not assigned (main.cc line 306:
"set all component ranks to -1"). -/
def UNASSIGNED : Int := -1

/-- Modelled from the spec: `ConfigGraph::setComponentRanks` (configGraph.cc, not
among the sources) "assigns every component rank" the given value. -/
def ConfigGraph.setComponentRanks (graph : ConfigGraph) (rank : Int) : ConfigGraph :=
  { graph with comps := graph.comps.map (fun c => { c with rank := rank }) }

/-- Modelled from the spec: `ConfigGraph::checkRanks` (configGraph.cc, not among the
sources) accepts an assignment exactly when no component has "a rank outside
`[0, rankCount)`". -/
def ConfigGraph.checkRanks (graph : ConfigGraph) (ranks : Nat) : Bool :=
  graph.comps.all (fun c => decide (0 ≤ c.rank) && decide (c.rank < (ranks : Int)))

/-- Modelled from the spec: `ConfigGraph::containsComponentInRank` (configGraph.cc,
not among the sources) tells whether the rank has at least one "locally assigned"
component. -/
def ConfigGraph.containsComponentInRank (graph : ConfigGraph) (rank : Nat) : Bool :=
  graph.comps.any (fun c => decide (c.rank = (rank : Int)))

/-- The lookup `comps[id]` of main.cc lines 416-417, followed by `.rank`.  The
component map type is declared outside the sources; a missing identifier has no
defined result and is `none` here. -/
def rankOf (comps : List ConfigComponent) (id : ComponentId_t) : Option Int :=
  (comps.find? (fun c => c.id == id)).map (fun c => c.rank)

/-! ## Partition graph and the rank-slice partitioner -/

/-- A node of the partition graph: identifier and assigned rank. -/
structure PartitionComponent where
  id : ComponentId_t
  rank : Int := -1
deriving DecidableEq, Repr

/-- The partition graph, as its component map. -/
structure PartitionGraph where
  comps : List PartitionComponent := []
deriving DecidableEq, Repr

/-- Rank of the node at position `k` (counted from 0) when `n` nodes are cut
into `rankcount` contiguous segments whose sizes differ by at most one: the first
`n % rankcount` segments hold `n / rankcount + 1` nodes, the others `n / rankcount`. -/
def sliceRank (n rankcount k : Nat) : Nat :=
  let q := n / rankcount
  let r := n % rankcount
  if k < r * (q + 1) then k / (q + 1) else r + (k - r * (q + 1)) / q

/-- Ranks for a list of nodes already in slicing order, the first node being at
position `k`. -/
def assignFrom (n rankcount : Nat) : Nat → List PartitionComponent → List PartitionComponent
  | _, [] => []
  | k, c :: cs => { c with rank := (sliceRank n rankcount k : Int) } :: assignFrom n rankcount (k + 1) cs

/-- Modelled from the spec: `SSTLinearPartition::performPartition` is declared in
linpart.h and defined in linpart.cc, which is not among the sources.  The spec:
the strategy "sorts nodes by identifier and slices the identifier space into
`rankCount` contiguous, approximately equal-weight segments; one segment per rank";
the header: components "are grouped by slicing the list into approximately equal
parts".  Every node counts equally here (node weights are floating point and are
not consulted), so "approximately equal" is: segment sizes differ by at most one. -/
def SSTLinearPartition.performPartition (rankcount : Nat) (graph : PartitionGraph) :
    PartitionGraph :=
  let sorted := graph.comps.insertionSort (fun a b => a.id ≤ b.id)
  { comps := assignFrom sorted.length rankcount 0 sorted }

/-! ## The setup block of `main` -/

/-- The values of `cfg.runMode` that `main` tests for (`Config::INIT`,
`Config::RUN`, `Config::BOTH`), and any other value. -/
inductive RunMode where
  | INIT
  | RUN
  | BOTH
  | other
deriving DecidableEq, Repr

/-- The fields of `Config` read by `main`. -/
structure Config where
  sdlfile : String := "NONE"
  model_options : String := ""
  runMode : RunMode := .BOTH
  generator : String := "NONE"
  generator_options : String := ""
  partitioner : String := "linear"
  dump_component_graph_file : String := ""
  dump_config_graph : String := ""
  output_dot : String := ""
  verbose : Bool := false
deriving DecidableEq, Repr

/-- What the coordinating rank sends in the broadcasts of main.cc lines 425 and
449-453, as seen by a receiving rank. -/
structure Broadcast where
  min_part : SimTime_t := 0
  graph : ConfigGraph := {}
  cfg : Config := {}

/-- The collaborators of `main` whose code is outside the sources, taken as
parameters, and the build flag `HAVE_ZOLTAN`. -/
structure Env where
  /-- The flag `HAVE_ZOLTAN` of the build. -/
  HAVE_ZOLTAN : Bool
  /-- The function `Factory::GetGenerator(name)`: the generator fills the graph it
  is given from the option string and the rank count. -/
  GetGenerator : String → ConfigGraph → String → Nat → ConfigGraph
  /-- The graph returned by `modelGen->createConfigGraph()`. -/
  createConfigGraph : ConfigGraph
  /-- The method `ConfigGraph::checkForStructuralErrors()`; true on error. -/
  checkForStructuralErrors : ConfigGraph → Bool
  /-- The method `ConfigGraph::getCollapsedPartitionGraph()`. -/
  getCollapsedPartitionGraph : ConfigGraph → PartitionGraph
  /-- The method `ConfigGraph::annotateRanks(pgraph)`. -/
  annotateRanks : ConfigGraph → PartitionGraph → ConfigGraph
  /-- The function `simple_partition(pgraph, size)`. -/
  simple_partition : PartitionGraph → Nat → PartitionGraph
  /-- The function `rrobin_partition(pgraph, size)`. -/
  rrobin_partition : PartitionGraph → Nat → PartitionGraph
  /-- The method `SSTZoltanPartition::performPartition(pgraph)`. -/
  zoltan_partition : PartitionGraph → PartitionGraph
  /-- The table behind `Factory::GetPartitioner`: the partition function registered
  under a name, if any. -/
  partitioners : String → Option (ConfigGraph → Nat → ConfigGraph)
  /-- What this process receives in the broadcasts when it is not rank 0. -/
  received : Broadcast

/-- The names under which a partitioning strategy is recorded in the trace. -/
inductive Strategy where
  | zoltan
  | simple
  | rrobin
  | linear
  | custom (name : String)
deriving DecidableEq, Repr

/-- The objects broadcast from rank 0 (main.cc lines 425, 449-453). -/
inductive BroadcastItem where
  | min_part
  | graph
  | keyMap
  | keyMapReverse
  | nextKeyID
  | cfg
deriving DecidableEq, Repr

/-- The steps of setup that are recorded, in program order. -/
inductive Event where
  /-- A graph was built: a generator ran or `createConfigGraph()` was called. -/
  | build
  /-- The call `graph->checkForStructuralErrors()` and its result. -/
  | checkForStructuralErrors (err : Bool)
  /-- The call `graph->setComponentRanks(rank)`. -/
  | setComponentRanks (rank : Int)
  /-- The call `graph->getCollapsedPartitionGraph()`. -/
  | getCollapsedPartitionGraph
  /-- A partitioning strategy was invoked. -/
  | partition (s : Strategy)
  /-- The call `graph->annotateRanks(pgraph)`. -/
  | annotateRanks
  /-- The partition report was written by `dump_partition` to the path. -/
  | dump_partition (path : String)
  /-- The call `graph->checkRanks(size)` and its result. -/
  | checkRanks (ok : Bool)
  /-- The call `broadcast(world, item, 0)`. -/
  | broadcast (item : BroadcastItem)
  /-- The warning "No components are assigned to rank". -/
  | warnNoComponents
  /-- The call `graph->dumpToFile(path, &cfg, asDot)`. -/
  | dumpToFile (path : String) (asDot : Bool)
  /-- The call `sim->performWireUp(*graph, rank, min_part)`. -/
  | performWireUp (graph : ConfigGraph) (rank : Nat) (min_part : SimTime_t)
  /-- The call `sim_output->fatal(..., code, ...)`, which ends the process. -/
  | fatal (code : Int)
deriving DecidableEq, Repr

/-- How the setup block ends. -/
inductive Outcome where
  /-- The block ran to its end (wireup was performed). -/
  | completed
  /-- The process was ended by `fatal` with the exit code. -/
  | fatal (code : Int)
  /-- A component lookup `comps[id]` had no defined result. -/
  | undefinedLookup
deriving DecidableEq, Repr

/-- A run of (a part of) the setup block: what was done, and how it ended. -/
structure Run where
  trace : List Event
  outcome : Outcome
deriving DecidableEq, Repr

/-- The constant `0xffffffffffffffffl` of main.cc line 406. -/
def NO_BOUND : SimTime_t := 0xffffffffffffffff

/-- The graph construction of main.cc lines 193-200 and 275-282: a named
generator fills a new graph, or the model description creates one. -/
def generateGraph (env : Env) (cfg : Config) (size : Nat) : ConfigGraph :=
  if cfg.generator ≠ "NONE" then
    env.GetGenerator cfg.generator {} cfg.generator_options size
  else
    env.createConfigGraph

/-- Modelled from the spec: `Factory::GetPartitioner` (factory.cc, not among the
sources) looks the name up among the registered partition functions;
"unrecognized names are a fatal error".  The exit code of that abort is not given
by the spec and is taken as `-1`, the code of the other configuration aborts. -/
def GetPartitioner (env : Env) (name : String) : Except Int (ConfigGraph → Nat → ConfigGraph) :=
  match env.partitioners name with
  | some func => .ok func
  | none => .error (-1)

/-- The dispatch of main.cc lines 317-368, entered with the collapsed partition
graph when the partitioner is neither "zoltan" nor "self". -/
def dispatchPartitioner (env : Env) (cfg : Config) (size : Nat) (graph : ConfigGraph) :
    List Event × Except Int ConfigGraph :=
  let pgraph := env.getCollapsedPartitionGraph graph
  if cfg.partitioner = "simple" then
    ([.getCollapsedPartitionGraph, .partition .simple, .annotateRanks],
      .ok (env.annotateRanks graph (env.simple_partition pgraph size)))
  else if cfg.partitioner = "rrobin" ∨ cfg.partitioner = "roundrobin" then
    ([.getCollapsedPartitionGraph, .partition .rrobin, .annotateRanks],
      .ok (env.annotateRanks graph (env.rrobin_partition pgraph size)))
  else if cfg.partitioner = "linear" then
    ([.getCollapsedPartitionGraph, .partition .linear, .annotateRanks],
      .ok (env.annotateRanks graph (SSTLinearPartition.performPartition size pgraph)))
  else
    match GetPartitioner env cfg.partitioner with
    | .error code => ([.getCollapsedPartitionGraph, .fatal code], .error code)
    | .ok func =>
      ([.getCollapsedPartitionGraph, .partition (.custom cfg.partitioner), .annotateRanks],
        .ok (env.annotateRanks (func graph size) {}))

/-- The three-way branch of main.cc lines 190-380: build the graph, check it for
structural errors and partition it.  The result is the trace of the branch and
either the graph the branch leaves in `graph` or the exit code of a `fatal`. -/
def buildAndPartition (env : Env) (cfg : Config) (rank size : Nat) :
    List Event × Except Int ConfigGraph :=
  if size = 1 then
    let graph := generateGraph env cfg size
    if env.checkForStructuralErrors graph then
      ([.build, .checkForStructuralErrors true, .fatal (-1)], .error (-1))
    else
      ([.build, .checkForStructuralErrors false, .setComponentRanks 0],
        .ok (graph.setComponentRanks 0))
  else if cfg.partitioner = "zoltan" then
    if env.HAVE_ZOLTAN then
      if rank = 0 then
        let graph := generateGraph env cfg size
        if env.checkForStructuralErrors graph then
          ([.build, .checkForStructuralErrors true, .fatal (-1)], .error (-1))
        else
          let pgraph := env.zoltan_partition (env.getCollapsedPartitionGraph graph)
          ([.build, .checkForStructuralErrors false, .getCollapsedPartitionGraph,
              .partition .zoltan, .annotateRanks],
            .ok (env.annotateRanks graph pgraph))
      else
        ([.partition .zoltan], .ok {})
    else
      ([.fatal (-1)], .error (-1))
  else if rank = 0 then
    let graph := generateGraph env cfg size
    if env.checkForStructuralErrors graph then
      ([.build, .checkForStructuralErrors true, .fatal (-1)], .error (-1))
    else if cfg.partitioner = "self" then
      ([.build, .checkForStructuralErrors false], .ok graph)
    else
      let r := dispatchPartitioner env cfg size (graph.setComponentRanks (-1))
      (.build :: .checkForStructuralErrors false :: .setComponentRanks (-1) :: r.1, r.2)
  else
    ([], .ok {})

/-- The loop of main.cc lines 412-422 over the links, started with the current
`min_part`; `none` when a lookup `comps[...]` has no defined result. -/
def minPartLoop (comps : List ConfigComponent) : List ConfigLink → SimTime_t → Option SimTime_t
  | [], min_part => some min_part
  | clink :: rest, min_part =>
    match rankOf comps clink.component0, rankOf comps clink.component1 with
    | some rank0, some rank1 =>
      if rank0 = rank1 then minPartLoop comps rest min_part
      else if clink.getMinLatency < min_part then minPartLoop comps rest clink.getMinLatency
      else minPartLoop comps rest min_part
    | _, _ => none

/-- The value of `min_part` on rank 0 after main.cc lines 406-423. -/
def computeMinPart (graph : ConfigGraph) : Option SimTime_t :=
  minPartLoop graph.comps graph.links NO_BOUND

/-- The events of `dump_partition` (main.cc lines 64-100): the report is written
when a path is configured and the rank is 0. -/
def dump_partition (cfg : Config) (rank : Nat) : List Event :=
  if cfg.dump_component_graph_file ≠ "" ∧ rank = 0 then
    [.dump_partition cfg.dump_component_graph_file]
  else []

/-- The function `do_graph_wireup` (main.cc lines 102-121). -/
def do_graph_wireup (graph : ConfigGraph) (cfg : Config) (rank : Nat) (min_part : SimTime_t) :
    List Event :=
  (if graph.containsComponentInRank rank then [] else [.warnNoComponents])
  ++ (if cfg.dump_config_graph ≠ "" then [.dumpToFile cfg.dump_config_graph false] else [])
  ++ (if cfg.output_dot ≠ "" then [.dumpToFile cfg.output_dot true] else [])
  ++ [.performWireUp graph rank min_part]

/-- The broadcasts of main.cc lines 448-454 followed by the wireup of line 563.
On a rank other than 0 the graph and the configuration are replaced by the
received ones. -/
def syncAndWireup (env : Env) (cfg : Config) (rank size : Nat) (graph : ConfigGraph)
    (min_part : SimTime_t) : Run :=
  if 1 < size then
    let graph2 := if rank = 0 then graph else env.received.graph
    let cfg2 := if rank = 0 then cfg else env.received.cfg
    { trace := [.broadcast .graph, .broadcast .keyMap, .broadcast .keyMapReverse,
                .broadcast .nextKeyID, .broadcast .cfg]
               ++ do_graph_wireup graph2 cfg2 rank min_part,
      outcome := .completed }
  else
    { trace := do_graph_wireup graph cfg rank min_part, outcome := .completed }

/-- The computation and broadcast of `min_part`, main.cc lines 405-427, and what
follows it. -/
def latencyAndSync (env : Env) (cfg : Config) (rank size : Nat) (graph : ConfigGraph) : Run :=
  if 1 < size then
    if rank = 0 then
      match computeMinPart graph with
      | none => { trace := [], outcome := .undefinedLookup }
      | some min_part =>
        let r := syncAndWireup env cfg rank size graph min_part
        { trace := .broadcast .min_part :: r.trace, outcome := r.outcome }
    else
      let r := syncAndWireup env cfg rank size graph env.received.min_part
      { trace := .broadcast .min_part :: r.trace, outcome := r.outcome }
  else
    syncAndWireup env cfg rank size graph NO_BOUND

/-- The part of the setup block after the three-way branch, main.cc lines
394-563: partition report, rank check on rank 0, minimum latency, broadcasts and
wireup. -/
def validateAndWireup (env : Env) (cfg : Config) (rank size : Nat) (graph : ConfigGraph) : Run :=
  if rank = 0 then
    if graph.checkRanks size then
      let r := latencyAndSync env cfg rank size graph
      { trace := dump_partition cfg rank ++ .checkRanks true :: r.trace, outcome := r.outcome }
    else
      { trace := dump_partition cfg rank ++ [.checkRanks false, .fatal 1], outcome := .fatal 1 }
  else
    let r := latencyAndSync env cfg rank size graph
    { trace := dump_partition cfg rank ++ r.trace, outcome := r.outcome }

/-- The setup block of `main` (main.cc lines 181-566) on one rank of `size`. -/
def setup (env : Env) (cfg : Config) (rank size : Nat) : Run :=
  match buildAndPartition env cfg rank size with
  | (tr, .error code) => { trace := tr, outcome := .fatal code }
  | (tr, .ok graph) =>
    let r := validateAndWireup env cfg rank size graph
    { trace := tr ++ r.trace, outcome := r.outcome }

/-! ## Predicates and sample data used by the statements -/

/-- A link crosses a rank boundary when its two endpoint components have
different ranks (the negation of the test of main.cc line 418). -/
def crossesRanks (comps : List ConfigComponent) (clink : ConfigLink) : Bool :=
  rankOf comps clink.component0 != rankOf comps clink.component1

/-- Every endpoint of every link is a component of the graph, so that each lookup
`comps[clink.component[i]]` of the latency loop is defined. -/
def endpointsResolve (graph : ConfigGraph) : Prop :=
  ∀ l ∈ graph.links,
    (rankOf graph.comps l.component0).isSome ∧ (rankOf graph.comps l.component1).isSome

/-- The graph of the latency example: components 0 and 2 on rank 0, component 1 on
rank 1, a link 0-1 of latency 50 and a link 0-2 of latency 10. -/
def latencyExample : ConfigGraph :=
  { comps := [{ id := 0, rank := 0 }, { id := 1, rank := 1 }, { id := 2, rank := 0 }],
    links := [{ component0 := 0, component1 := 1, minLatency := 50 },
              { component0 := 0, component1 := 2, minLatency := 10 }] }

/-- A sample environment: no Zoltan, generators that leave the graph as it is,
a model description that yields the latency example, a structural check that
reports a link endpoint absent from the component map, collaborators that leave
the partition graph and the ranks as they are, and no registered partitioner. -/
def sampleEnv : Env :=
  { HAVE_ZOLTAN := false
    GetGenerator := fun _ g _ _ => g
    createConfigGraph := latencyExample
    checkForStructuralErrors := fun g =>
      g.links.any (fun l => (rankOf g.comps l.component0).isNone
        || (rankOf g.comps l.component1).isNone)
    getCollapsedPartitionGraph := fun g =>
      { comps := g.comps.map (fun c => { id := c.id, rank := c.rank }) }
    annotateRanks := fun g _ => g
    simple_partition := fun pg _ => pg
    rrobin_partition := fun pg _ => pg
    zoltan_partition := fun pg => pg
    partitioners := fun _ => none
    received := {} }

/-- Nine partition-graph nodes with identifiers 0..8, all unassigned. -/
def nineNodes : PartitionGraph :=
  { comps := (List.range 9).map (fun i => { id := i }) }

/-- The events that the three-way build-and-partition branch can record. -/
def Event.isBuildStep : Event → Bool
  | .build => true
  | .checkForStructuralErrors _ => true
  | .setComponentRanks _ => true
  | .getCollapsedPartitionGraph => true
  | .partition _ => true
  | .annotateRanks => true
  | .fatal _ => true
  | _ => false

/-- The events that can follow the three-way branch on a rank other than 0. -/
def Event.isSyncStep : Event → Bool
  | .dump_partition _ => true
  | .broadcast _ => true
  | .warnNoComponents => true
  | .dumpToFile _ _ => true
  | .performWireUp _ _ _ => true
  | _ => false

/-- The structural check comes first: the trace of setup starts with the build
and the structural check of the graph just built, and when that check reports an
error the trace ends there with `fatal(-1)`. -/
def structuralCheckFirst (env : Env) (cfg : Config) (rank size : Nat) : Prop :=
  (∃ rest, (setup env cfg rank size).trace =
      .build :: .checkForStructuralErrors
        (env.checkForStructuralErrors (generateGraph env cfg size)) :: rest)
  ∧ (env.checkForStructuralErrors (generateGraph env cfg size) = true →
      setup env cfg rank size =
        { trace := [.build, .checkForStructuralErrors true, .fatal (-1)],
          outcome := .fatal (-1) })

/-- A graph with a link whose second endpoint is not a component. -/
def danglingExample : ConfigGraph :=
  { comps := [{ id := 0, rank := 0 }],
    links := [{ component0 := 0, component1 := 7, minLatency := 5 }] }

/-- The sample environment with a model description that yields the graph with a
dangling link. -/
def danglingEnv : Env := { sampleEnv with createConfigGraph := danglingExample }

/-- The sample environment with Zoltan available. -/
def zoltanEnv : Env := { sampleEnv with HAVE_ZOLTAN := true }

/-- The strategy names that `main` itself tests for (main.cc lines 218, 309, 319,
329, 340). -/
def builtinPartitioners : List String :=
  ["zoltan", "self", "simple", "rrobin", "roundrobin", "linear"]

/-- A partitioner name is recognized when `main` tests for it or a partition
function is registered under it. -/
def recognizedPartitioner (env : Env) (name : String) : Bool :=
  decide (name ∈ builtinPartitioners) || (env.partitioners name).isSome

/-! ## Identity registry (componentInfo.h) -/

/-- The fields of `ComponentInfo` that the registry reads or that tell two records
apart: `id`, `name` and `type`. -/
structure ComponentInfo where
  id : ComponentId_t
  name : String := ""
  type : String := ""
deriving DecidableEq, Repr

/-- The test `ComponentInfo::EqualsID`: `lhs->id == rhs->id`. -/
def ComponentInfo.EqualsID (lhs rhs : ComponentInfo) : Bool := lhs.id == rhs.id

/-- The two identifier macros used by `getByID`.  They are defined in sst_types.h,
which is not among the sources, and are parameters of the registry operations. -/
structure IdLayout where
  /-- The macro `COMPONENT_ID_MASK(x)`: the base component ID field of `x`. -/
  COMPONENT_ID_MASK : ComponentId_t → ComponentId_t
  /-- The macro `SUBCOMPONENT_ID_MASK(x)`: the subcomponent ID field of `x`. -/
  SUBCOMPONENT_ID_MASK : ComponentId_t → ComponentId_t

/-- Modelled from the spec: the macros of sst_types.h for an identifier "composed
of two sub-fields: a base component ID and a subcomponent ID", the base field
being the low `bits` bits and the subcomponent field the bits above them.  The
spec does not fix the width of the fields. -/
def fieldLayout (bits : Nat) : IdLayout :=
  { COMPONENT_ID_MASK := fun x => x % 2 ^ bits
    SUBCOMPONENT_ID_MASK := fun x => x / 2 ^ bits }

/-- The registry `ComponentInfoMap`: the set `dataByID`, whose elements are
compared with `EqualsID`, as the list of its elements. -/
structure ComponentInfoMap where
  dataByID : List ComponentInfo := []
deriving DecidableEq, Repr

/-- The call `dataByID.find(&infoKey)`: the element equal to the key under
`EqualsID`, if there is one. -/
def ComponentInfoMap.find (m : ComponentInfoMap) (infoKey : ComponentInfo) : Option ComponentInfo :=
  m.dataByID.find? (fun r => r.EqualsID infoKey)

/-- The method `ComponentInfoMap::insert`: `dataByID.insert(info)` adds the record
unless the set already holds an element equal to it under `EqualsID`; the result of
the set insertion is dropped and the method returns `void`, so all a caller has
after the call is the registry.  The container does not specify where a new
element goes in the iteration order; it is put last. -/
def ComponentInfoMap.insert (m : ComponentInfoMap) (info : ComponentInfo) : ComponentInfoMap :=
  if m.dataByID.any (fun r => r.EqualsID info) then m
  else { dataByID := m.dataByID ++ [info] }

/-- The method `ComponentInfoMap::getByID`; `none` is `NULL`.  The method
`ComponentInfo::findSubComponent` is declared in componentInfo.h and defined
outside the sources, and is a parameter. -/
def ComponentInfoMap.getByID (layout : IdLayout)
    (findSubComponent : ComponentInfo → ComponentId_t → Option ComponentInfo)
    (m : ComponentInfoMap) (key : ComponentId_t) : Option ComponentInfo :=
  let infoKey : ComponentInfo := { id := layout.COMPONENT_ID_MASK key, name := "" }
  match m.find infoKey with
  | none => none
  | some value =>
    if layout.SUBCOMPONENT_ID_MASK key ≠ 0 then findSubComponent value key
    else some value

/-- The method `ComponentInfoMap::empty`. -/
def ComponentInfoMap.empty (m : ComponentInfoMap) : Bool := m.dataByID.isEmpty

/-- The method `ComponentInfoMap::clear`: every element of `dataByID` is deleted,
then the set is cleared.  The result is the list of the deleted records, in
iteration order, and the registry after the call. -/
def ComponentInfoMap.clear (m : ComponentInfoMap) : List ComponentInfo × ComponentInfoMap :=
  (m.dataByID, { dataByID := [] })

/-- The registries that can be built: the empty one (`ComponentInfoMap()`), and
what `insert` and `clear` make of a registry that can be built. -/
inductive Reachable : ComponentInfoMap → Prop where
  | init : Reachable {}
  | insert (m : ComponentInfoMap) (info : ComponentInfo) : Reachable m → Reachable (m.insert info)
  | clear (m : ComponentInfoMap) : Reachable m → Reachable m.clear.2

/-- No two elements of the registry have the same identifier. -/
def ComponentInfoMap.uniqueIds (m : ComponentInfoMap) : Prop :=
  (m.dataByID.map (fun r => r.id)).Nodup

instance (m : ComponentInfoMap) : Decidable m.uniqueIds :=
  inferInstanceAs (Decidable (List.Nodup (m.dataByID.map (fun (r : ComponentInfo) => r.id))))

/-- No two distinct records of the registry have identifiers with the same base
component ID field. -/
def ComponentInfoMap.uniqueBaseIds (layout : IdLayout) (m : ComponentInfoMap) : Prop :=
  ∀ a ∈ m.dataByID, ∀ b ∈ m.dataByID,
    layout.COMPONENT_ID_MASK a.id = layout.COMPONENT_ID_MASK b.id → a = b

/-- A registry holding one record, with identifier 5. -/
def registryExample : ComponentInfoMap :=
  ({} : ComponentInfoMap).insert { id := 5, name := "cpu", type := "t.cpu" }

/-- A sample `findSubComponent`: the record itself when the identifier is its own,
otherwise nothing. -/
def sampleFindSubComponent (info : ComponentInfo) (id : ComponentId_t) : Option ComponentInfo :=
  if id = info.id then some info else none

/-- A second record with identifier 5, different from the registered one. -/
def duplicateRecord : ComponentInfo := { id := 5, name := "cpu2", type := "t.other" }

/-- A registry built by two insertions, of identifier 5 and of identifier
`2^32 + 5`: with 32-bit base fields, base 5 and subcomponent 1. -/
def sharedBaseRegistry : ComponentInfoMap :=
  (({} : ComponentInfoMap).insert { id := 5, name := "cpu" }).insert
    { id := 2 ^ 32 + 5, name := "cpu:sub" }

/-! ## Identifier fields -/

/-- Modelled from the spec: the identifier "composed of two sub-fields: a base
component ID and a subcomponent ID" (the composing macro of sst_types.h is not
among the sources): the base ID occupies the low `bits` bits, which
`COMPONENT_ID_MASK` of `fieldLayout bits` extracts, and the subcomponent ID the
bits above them, which `SUBCOMPONENT_ID_MASK` extracts. -/
def composeId (bits : Nat) (base sub : ComponentId_t) : ComponentId_t :=
  sub * 2 ^ bits + base

/-! ## The partition report (`dump_partition`) -/

/-- The five lines written for one component, main.cc lines 84-88. -/
def componentLines (j : ConfigComponent) : List String :=
  ["   " ++ j.name ++ " (ID=" ++ toString j.id ++ ")",
   "      -> type      " ++ j.type,
   "      -> weight    " ++ j.weight,
   "      -> linkcount " ++ toString j.links.length,
   "      -> rank      " ++ toString j.rank]

/-- The inner loop of `dump_partition`, main.cc lines 82-90: the component map is
walked in order and the components with `j->rank == i` are written. -/
def dumpComponents (i : Nat) : List ConfigComponent → List String
  | [] => []
  | j :: rest => (if j.rank = (i : Int) then componentLines j else []) ++ dumpComponents i rest

/-- The outer loop of `dump_partition`, main.cc lines 79-91, with `remaining`
iterations to go and `i` the rank of the next one. -/
def dumpRanks (comps : List ConfigComponent) : Nat → Nat → List String
  | 0, _ => []
  | remaining + 1, i =>
    ("Rank: " ++ toString i ++ " Component List:") ::
      (dumpComponents i comps ++ dumpRanks comps remaining (i + 1))

/-- The file that `dump_partition` writes (main.cc lines 64-100): its path and
its lines, each ended by `std::endl`; `none` when no file is written. -/
def dump_partition_file (cfg : Config) (graph : ConfigGraph) (rank size : Nat) :
    Option (String × List String) :=
  if cfg.dump_component_graph_file ≠ "" ∧ rank = 0 then
    some (cfg.dump_component_graph_file, dumpRanks graph.comps size 0)
  else none

/-- The components listed in the block of rank `i`: those whose rank equals
`i`, in component-map order. -/
def blockComponents (comps : List ConfigComponent) (i : Nat) : List ConfigComponent :=
  comps.filter (fun c => decide (c.rank = (i : Int)))

/-- The block of rank `i` as the report is described: the line
"Rank: i Component List:" followed by the five lines of each component of the
block. -/
def rankBlock (comps : List ConfigComponent) (i : Nat) : List String :=
  ("Rank: " ++ toString i ++ " Component List:") ::
    (blockComponents comps i).flatMap componentLines

/-- The report as it is described: the blocks of the ranks 0 to `size - 1`, in
increasing order. -/
def reportBlocks (comps : List ConfigComponent) (size : Nat) : List String :=
  (List.range size).flatMap (rankBlock comps)

/-- A graph with one component on rank 0, one on rank 1 and one left at -1. -/
def reportExample : ConfigGraph :=
  { comps := [{ id := 0, name := "a", type := "t.cpu", rank := 0 },
              { id := 1, name := "b", type := "t.mem", links := [4, 9], rank := 1 },
              { id := 2, name := "c", type := "t.nic", rank := -1 }] }

/-! ## Order of the files written -/

/-- The event is the writing of the partition report. -/
def Event.isReport : Event → Bool
  | .dump_partition _ => true
  | _ => false

/-- The event is the writing of a graph export (structural dump or dot). -/
def Event.isExport : Event → Bool
  | .dumpToFile _ _ => true
  | _ => false

/-- Some event satisfying `p` occurs in the trace before some event satisfying
`q`. -/
def occursBefore (p q : Event → Bool) : List Event → Bool
  | [] => false
  | e :: rest => (p e && rest.any q) || occursBefore p q rest

/-- A configuration with a partition report path and a graph export path. -/
def bothDumpsConfig : Config :=
  { dump_component_graph_file := "part.txt", dump_config_graph := "graph.txt" }

/-! ## The start of `main`: input file type -/

/-- The value `cfg.sdlfile.substr(cfg.sdlfile.size() - 3)` of main.cc line 155:
the last three characters of the name.  A `std::string` is a sequence of `char`s;
each is a character of the string here. -/
def fileExtension (sdlfile : String) : String :=
  String.mk (sdlfile.data.drop (sdlfile.length - 3))

/-- How the selection of the model description (main.cc lines 149-173) ends:
`main` returns with an exit code, or goes on with the configuration and the model
description it created (`none` for the null pointer, otherwise the file the
`SSTPythonModelDefinition` was created for). -/
inductive ModelSelection where
  | returned (code : Int)
  | proceed (cfg : Config) (modelGen : Option String)
deriving DecidableEq, Repr

/-- The selection of the model description by the type of the input file, main.cc
lines 149-173.  The build constant `SST_INSTALL_PREFIX` is a parameter. -/
def selectModel (SST_INSTALL_PREFIX : String) (cfg : Config) : ModelSelection :=
  if cfg.sdlfile ≠ "NONE" then
    if cfg.sdlfile.length > 3 then
      let file_ext := fileExtension cfg.sdlfile
      let converted : Config × String :=
        if file_ext = "xml" ∨ file_ext = "sdl" then
          ({ cfg with model_options := cfg.sdlfile,
                      sdlfile := SST_INSTALL_PREFIX ++ "/libexec/xmlToPython.py" }, ".py")
        else (cfg, file_ext)
      if converted.2 = ".py" then .proceed converted.1 (some converted.1.sdlfile)
      else .returned (-1)
    else .returned (-1)
  else .proceed cfg none

/-- The steps of `main` that are recorded, in program order. -/
inductive MainEvent where
  /-- The call `cfg.parseCmdLine(argc, argv)` and whether it reported an error. -/
  | parseCmdLine (failed : Bool)
  /-- The call `new SSTPythonModelDefinition(file, ...)`. -/
  | newModelDefinition (file : String)
  /-- The call `Simulation::createSimulation(&cfg, rank, size)`. -/
  | createSimulation
  /-- A step of the setup block. -/
  | setup (e : Event)
deriving DecidableEq, Repr

/-- How the modelled part of `main` ends. -/
inductive MainExit where
  /-- The function `main` returned the exit code. -/
  | returned (code : Int)
  /-- The process was ended by `fatal` with the exit code. -/
  | fatal (code : Int)
  /-- A component lookup `comps[id]` had no defined result. -/
  | undefinedLookup
  /-- Control reached the run phase (main.cc line 568), which is not modelled. -/
  | runPhase
deriving DecidableEq, Repr

/-- A run of the modelled part of `main`. -/
structure MainRun where
  trace : List MainEvent
  exit : MainExit
deriving DecidableEq, Repr

/-- The function `main` up to the end of the setup block (main.cc lines 124-566):
command line, model description, and, in the run modes `INIT` and `BOTH`, the
creation of the simulation and setup.  Whether `parseCmdLine` reports an error is
an input. -/
def main (env : Env) (SST_INSTALL_PREFIX : String) (parseCmdLineFails : Bool) (cfg : Config)
    (rank size : Nat) : MainRun :=
  if parseCmdLineFails then
    { trace := [.parseCmdLine true], exit := .returned (-1) }
  else
    match selectModel SST_INSTALL_PREFIX cfg with
    | .returned code => { trace := [.parseCmdLine false], exit := .returned code }
    | .proceed cfg2 modelGen =>
      let created : List MainEvent :=
        match modelGen with
        | some file => [.newModelDefinition file]
        | none => []
      if cfg2.runMode = .INIT ∨ cfg2.runMode = .BOTH then
        let r := setup env cfg2 rank size
        { trace := .parseCmdLine false :: created ++ .createSimulation :: r.trace.map .setup,
          exit :=
            match r.outcome with
            | .completed => .runPhase
            | .fatal code => .fatal code
            | .undefinedLookup => .undefinedLookup }
      else
        { trace := .parseCmdLine false :: created, exit := .runPhase }

/-- The input file name is of an unsupported type: it has at most three
characters, or its last three characters are none of "xml", "sdl" and ".py". -/
def unsupportedFileType (sdlfile : String) : Prop :=
  sdlfile.length ≤ 3 ∨
    (fileExtension sdlfile ≠ "xml" ∧ fileExtension sdlfile ≠ "sdl"
      ∧ fileExtension sdlfile ≠ ".py")

/-- The input file name has more than three characters and ends in "xml", "sdl"
or ".py". -/
def supportedFileType (sdlfile : String) : Prop :=
  3 < sdlfile.length ∧
    (fileExtension sdlfile = "xml" ∨ fileExtension sdlfile = "sdl"
      ∨ fileExtension sdlfile = ".py")

instance (sdlfile : String) : Decidable (unsupportedFileType sdlfile) :=
  inferInstanceAs (Decidable (_ ∨ _))

instance (sdlfile : String) : Decidable (supportedFileType sdlfile) :=
  inferInstanceAs (Decidable (_ ∧ _))

/-- The two fields of an identifier are separate: an identifier whose
subcomponent field is 0 is its own base ID, and a base ID has subcomponent
field 0.  This is what the registry needs to know of the macros of sst_types.h;
`fieldLayout bits` has the property for every width. -/
def IdLayout.fieldsSeparate (layout : IdLayout) : Prop :=
  (∀ x, layout.SUBCOMPONENT_ID_MASK x = 0 → layout.COMPONENT_ID_MASK x = x)
    ∧ (∀ x, layout.SUBCOMPONENT_ID_MASK (layout.COMPONENT_ID_MASK x) = 0)

/-- A record whose identifier has base ID 5 and subcomponent ID 1 (32-bit base
field). -/
def subRecord : ComponentInfo := { id := composeId 32 5 1, name := "cpu:sub" }

/-- A record with identifier 7, not in `registryExample`. -/
def freshRecord : ComponentInfo := { id := 7, name := "mem", type := "t.mem" }

/-! # Theorems -/

/-! ## Facts about the graph helpers -/

theorem setComponentRanks_rank (graph : ConfigGraph) (rank : Int) :
    ∀ c ∈ (graph.setComponentRanks rank).comps, c.rank = rank := by
  intro c hc
  simp only [ConfigGraph.setComponentRanks, List.mem_map] at hc
  obtain ⟨d, _, rfl⟩ := hc
  rfl

theorem checkRanks_iff (graph : ConfigGraph) (ranks : Nat) :
    graph.checkRanks ranks = true ↔ ∀ c ∈ graph.comps, 0 ≤ c.rank ∧ c.rank < (ranks : Int) := by
  simp [ConfigGraph.checkRanks, List.all_eq_true]

theorem checkRanks_setComponentRanks_zero (graph : ConfigGraph) (ranks : Nat) (h : 0 < ranks) :
    (graph.setComponentRanks 0).checkRanks ranks = true := by
  rw [checkRanks_iff]
  intro c hc
  rw [setComponentRanks_rank graph 0 c hc]
  exact ⟨le_refl 0, by exact_mod_cast h⟩

theorem mem_do_graph_wireup (graph : ConfigGraph) (cfg : Config) (rank : Nat)
    (min_part : SimTime_t) (g : ConfigGraph) (r : Nat) (m : SimTime_t) :
    Event.performWireUp g r m ∈ do_graph_wireup graph cfg rank min_part ↔
      g = graph ∧ r = rank ∧ m = min_part := by
  unfold do_graph_wireup
  by_cases h1 : graph.containsComponentInRank rank = true <;>
  by_cases h2 : cfg.dump_config_graph = "" <;>
  by_cases h3 : cfg.output_dot = "" <;>
  simp [h1, h2, h3]

/-! ## Single rank -/

/-- C1. With one rank and a graph without structural error, setup builds, checks
and calls `setComponentRanks(0)`; no partition graph is built and no strategy runs;
every component of the graph handed to wireup has rank 0; setup completes, and
the only wireup call receives `min_part = 0xFFFFFFFFFFFFFFFF = 2^64 - 1`. -/
theorem C1_single_rank (env : Env) (cfg : Config) (rank : Nat)
    (hok : env.checkForStructuralErrors (generateGraph env cfg 1) = false) :
    (setup env cfg rank 1).trace =
        [.build, .checkForStructuralErrors false, .setComponentRanks 0]
          ++ dump_partition cfg rank
          ++ (if rank = 0 then [.checkRanks true] else [])
          ++ do_graph_wireup ((generateGraph env cfg 1).setComponentRanks 0) cfg rank NO_BOUND
      ∧ (setup env cfg rank 1).outcome = .completed
      ∧ Event.getCollapsedPartitionGraph ∉ (setup env cfg rank 1).trace
      ∧ (∀ s, Event.partition s ∉ (setup env cfg rank 1).trace)
      ∧ Event.performWireUp ((generateGraph env cfg 1).setComponentRanks 0) rank
          0xFFFFFFFFFFFFFFFF ∈ (setup env cfg rank 1).trace
      ∧ (∀ g r m, Event.performWireUp g r m ∈ (setup env cfg rank 1).trace →
          m = 2 ^ 64 - 1 ∧ ∀ c ∈ g.comps, c.rank = 0) := by
  have hcr := checkRanks_setComponentRanks_zero (generateGraph env cfg 1) 1 (by decide)
  have htrace : (setup env cfg rank 1).trace =
        [.build, .checkForStructuralErrors false, .setComponentRanks 0]
          ++ dump_partition cfg rank
          ++ (if rank = 0 then [.checkRanks true] else [])
          ++ do_graph_wireup ((generateGraph env cfg 1).setComponentRanks 0) cfg rank NO_BOUND := by
    by_cases hr : rank = 0 <;>
    simp [setup, buildAndPartition, hok, validateAndWireup, latencyAndSync, syncAndWireup, hcr, hr]
  have hout : (setup env cfg rank 1).outcome = .completed := by
    by_cases hr : rank = 0 <;>
    simp [setup, buildAndPartition, hok, validateAndWireup, latencyAndSync, syncAndWireup, hcr, hr]
  have hdump : ∀ e ∈ dump_partition cfg rank, ∃ p, e = Event.dump_partition p := by
    intro e he
    unfold dump_partition at he
    split at he
    · exact ⟨_, by simpa using he⟩
    · simp at he
  have hwire : ∀ e ∈ do_graph_wireup ((generateGraph env cfg 1).setComponentRanks 0) cfg rank
      NO_BOUND, e = Event.warnNoComponents ∨ (∃ p d, e = Event.dumpToFile p d) ∨
        e = Event.performWireUp ((generateGraph env cfg 1).setComponentRanks 0) rank NO_BOUND := by
    intro e he
    unfold do_graph_wireup at he
    simp only [List.mem_append, List.mem_singleton] at he
    rcases he with ((he | he) | he) | he
    · split at he
      · simp at he
      · left; simpa using he
    · split at he
      · right; left; exact ⟨_, _, by simpa using he⟩
      · simp at he
    · split at he
      · right; left; exact ⟨_, _, by simpa using he⟩
      · simp at he
    · right; right; exact he
  have hmem : ∀ e ∈ (setup env cfg rank 1).trace,
      e = .build ∨ e = .checkForStructuralErrors false ∨ e = .setComponentRanks 0 ∨
      (∃ p, e = Event.dump_partition p) ∨ e = .checkRanks true ∨
      e = Event.warnNoComponents ∨ (∃ p d, e = Event.dumpToFile p d) ∨
        e = Event.performWireUp ((generateGraph env cfg 1).setComponentRanks 0) rank NO_BOUND := by
    intro e he
    rw [htrace] at he
    simp only [List.mem_append, List.mem_cons] at he
    rcases he with ((he | he) | he) | he
    · rcases he with he | he | he | he
      · left; exact he
      · right; left; exact he
      · right; right; left; exact he
      · simp at he
    · right; right; right; left; exact hdump e he
    · split at he
      · right; right; right; right; left; simpa using he
      · simp at he
    · right; right; right; right; right; exact hwire e he
  refine ⟨htrace, hout, ?_, ?_, ?_, ?_⟩
  · intro h
    rcases hmem _ h with h | h | h | ⟨p, h⟩ | h | h | ⟨p, d, h⟩ | h <;> cases h
  · intro s h
    rcases hmem _ h with h | h | h | ⟨p, h⟩ | h | h | ⟨p, d, h⟩ | h <;> cases h
  · rw [htrace]
    simp only [List.mem_append]
    right
    exact (mem_do_graph_wireup _ _ _ _ _ _ _).2 ⟨rfl, rfl, rfl⟩
  · intro g r m h
    rcases hmem _ h with h | h | h | ⟨p, h⟩ | h | h | ⟨p, d, h⟩ | h <;> cases h
    exact ⟨rfl, setComponentRanks_rank _ 0⟩

/-! ## Minimum latency across a rank boundary -/

theorem minPartLoop_eq_foldl (comps : List ConfigComponent) (links : List ConfigLink)
    (hres : ∀ l ∈ links, (rankOf comps l.component0).isSome ∧ (rankOf comps l.component1).isSome)
    (m0 : SimTime_t) :
    minPartLoop comps links m0 =
      some (((links.filter (crossesRanks comps)).map ConfigLink.getMinLatency).foldl min m0) := by
  induction links generalizing m0 with
  | nil => rfl
  | cons l rest ih =>
    have hl := hres l (List.mem_cons_self _ _)
    have hrest := fun x hx => hres x (List.mem_cons_of_mem _ hx)
    obtain ⟨r0, h0⟩ := Option.isSome_iff_exists.mp hl.1
    obtain ⟨r1, h1⟩ := Option.isSome_iff_exists.mp hl.2
    by_cases heq : r0 = r1
    · have hc : crossesRanks comps l = false := by simp [crossesRanks, h0, h1, heq]
      simp [minPartLoop, h0, h1, heq, hc, ih hrest]
    · have hc : crossesRanks comps l = true := by simp [crossesRanks, h0, h1, heq]
      by_cases hlt : l.getMinLatency < m0
      · simp [minPartLoop, h0, h1, heq, hc, hlt, ih hrest, Nat.min_eq_right (Nat.le_of_lt hlt)]
      · simp [minPartLoop, h0, h1, heq, hc, hlt, ih hrest, Nat.min_eq_left (Nat.le_of_not_lt hlt)]

theorem foldl_min_le_init (xs : List Nat) (m0 : Nat) : xs.foldl min m0 ≤ m0 := by
  induction xs generalizing m0 with
  | nil => exact le_refl _
  | cons x xs ih => exact le_trans (ih (min m0 x)) (Nat.min_le_left _ _)

theorem foldl_min_le_mem (xs : List Nat) (m0 : Nat) : ∀ x ∈ xs, xs.foldl min m0 ≤ x := by
  induction xs generalizing m0 with
  | nil => intro x hx; cases hx
  | cons y ys ih =>
    intro x hx
    rcases List.mem_cons.mp hx with rfl | hx
    · exact le_trans (foldl_min_le_init ys (min m0 x)) (Nat.min_le_right _ _)
    · exact ih (min m0 y) x hx

theorem foldl_min_mem_or_init (xs : List Nat) (m0 : Nat) :
    xs.foldl min m0 = m0 ∨ xs.foldl min m0 ∈ xs := by
  induction xs generalizing m0 with
  | nil => left; rfl
  | cons y ys ih =>
    rcases ih (min m0 y) with h | h
    · rcases Nat.le_total m0 y with hle | hle
      · left; simpa [Nat.min_eq_left hle] using h
      · right
        rw [Nat.min_eq_right hle] at h
        simp only [List.foldl_cons, Nat.min_eq_right hle, h]
        exact List.mem_cons_self _ _
    · right; exact List.mem_cons_of_mem _ h

/-- C2. On rank 0 with more than one rank, for a graph whose link endpoints are
components of the graph and whose latencies are 64-bit values, the computed
`min_part` is the minimum of `getMinLatency()` over exactly the links whose endpoint
components have different ranks: it is a lower bound of those latencies, it is
attained by one of them when there is one, and it is `0xFFFFFFFFFFFFFFFF` when
there is none; dropping every same-rank link leaves it unchanged; it is the value
broadcast and handed to wireup; and the example with a rank-0/rank-1 link of
latency 50 and a rank-0/rank-0 link of latency 10 gives 50. -/
theorem C2_min_cross_rank_latency (graph : ConfigGraph)
    (hres : endpointsResolve graph)
    (hlat : ∀ l ∈ graph.links, l.getMinLatency < 2 ^ 64) :
    ∃ m, computeMinPart graph = some m
      ∧ (∀ l ∈ graph.links, crossesRanks graph.comps l = true → m ≤ l.getMinLatency)
      ∧ ((∃ l ∈ graph.links, crossesRanks graph.comps l = true) →
          ∃ l ∈ graph.links, crossesRanks graph.comps l = true ∧ m = l.getMinLatency)
      ∧ ((∀ l ∈ graph.links, crossesRanks graph.comps l = false) → m = 0xFFFFFFFFFFFFFFFF)
      ∧ computeMinPart { graph with links := graph.links.filter (crossesRanks graph.comps) }
          = some m
      ∧ (∀ (env : Env) (cfg : Config) (size : Nat), 1 < size →
          (latencyAndSync env cfg 0 size graph).trace =
            .broadcast .min_part :: (syncAndWireup env cfg 0 size graph m).trace
          ∧ Event.performWireUp graph 0 m ∈ (latencyAndSync env cfg 0 size graph).trace)
      ∧ computeMinPart latencyExample = some 50 := by
  have hm := minPartLoop_eq_foldl graph.comps graph.links hres NO_BOUND
  refine ⟨_, hm, ?_, ?_, ?_, ?_, ?_, ?_⟩
  · intro l hl hc
    apply foldl_min_le_mem
    exact List.mem_map.mpr ⟨l, List.mem_filter.mpr ⟨hl, hc⟩, rfl⟩
  · rintro ⟨l, hl, hc⟩
    rcases foldl_min_mem_or_init
      (((graph.links.filter (crossesRanks graph.comps)).map ConfigLink.getMinLatency)) NO_BOUND
      with h | h
    · refine ⟨l, hl, hc, ?_⟩
      have h1 : l.getMinLatency ≤ NO_BOUND := by
        have hl64 : l.getMinLatency < 18446744073709551616 := hlat l hl
        exact Nat.le_of_lt_succ hl64
      have h2 := foldl_min_le_mem
        (((graph.links.filter (crossesRanks graph.comps)).map ConfigLink.getMinLatency)) NO_BOUND
        l.getMinLatency (List.mem_map.mpr ⟨l, List.mem_filter.mpr ⟨hl, hc⟩, rfl⟩)
      rw [h] at h2 ⊢
      exact le_antisymm h2 h1
    · obtain ⟨l2, hl2, heq⟩ := List.mem_map.mp h
      obtain ⟨hmem, hc2⟩ := List.mem_filter.mp hl2
      exact ⟨l2, hmem, hc2, heq.symm⟩
  · intro hnone
    have : graph.links.filter (crossesRanks graph.comps) = [] := by
      apply List.filter_eq_nil_iff.mpr
      intro l hl
      simp [hnone l hl]
    rw [this]
    rfl
  · have hres2 : ∀ l ∈ graph.links.filter (crossesRanks graph.comps),
        (rankOf graph.comps l.component0).isSome ∧ (rankOf graph.comps l.component1).isSome :=
      fun l hl => hres l (List.mem_filter.mp hl).1
    have := minPartLoop_eq_foldl graph.comps _ hres2 NO_BOUND
    simp only [computeMinPart]
    rw [this]
    simp [List.filter_filter]
  · intro env cfg size hsize
    have hc : computeMinPart graph = some
        (((graph.links.filter (crossesRanks graph.comps)).map ConfigLink.getMinLatency).foldl
          min NO_BOUND) := hm
    have hs : ¬ size = 1 := by omega
    constructor
    · simp [latencyAndSync, hsize, hc]
    · simp only [latencyAndSync, hsize, hc, if_true, syncAndWireup]
      simp only [List.mem_cons, List.mem_append]
      right; right
      exact (mem_do_graph_wireup _ _ _ _ _ _ _).2 ⟨rfl, rfl, rfl⟩
  · decide

/-- Witness for C2 on the example graph, whose computed value is 50. -/
theorem C2_min_cross_rank_latency_witness :
    endpointsResolve latencyExample ∧ (∀ l ∈ latencyExample.links, l.getMinLatency < 2 ^ 64) ∧
    ∃ m, computeMinPart latencyExample = some m ∧
      (∀ l ∈ latencyExample.links, crossesRanks latencyExample.comps l = true →
        m ≤ l.getMinLatency) :=
  have hres : endpointsResolve latencyExample := by
    intro l hl
    simp only [latencyExample, List.mem_cons, List.mem_singleton, List.not_mem_nil, or_false] at hl
    rcases hl with rfl | rfl <;> decide
  have hlat : ∀ l ∈ latencyExample.links, l.getMinLatency < 2 ^ 64 := by
    intro l hl
    simp only [latencyExample, List.mem_cons, List.mem_singleton, List.not_mem_nil, or_false] at hl
    rcases hl with rfl | rfl <;> decide
  ⟨hres, hlat,
    (C2_min_cross_rank_latency latencyExample hres hlat).imp (fun _ h => ⟨h.1, h.2.1⟩)⟩

/-- Witness for C1: the sample environment on one rank. -/
theorem C1_single_rank_witness :
    sampleEnv.checkForStructuralErrors (generateGraph sampleEnv {} 1) = false ∧
      (setup sampleEnv {} 0 1).outcome = .completed :=
  ⟨by decide, (C1_single_rank sampleEnv {} 0 (by decide)).2.1⟩

/-! ## The rank-slice partitioner -/

theorem sliceRank_lt (n rankcount k : Nat) (hR : 0 < rankcount) (hk : k < n) :
    sliceRank n rankcount k < rankcount := by
  have hdm : rankcount * (n / rankcount) + n % rankcount = n := Nat.div_add_mod n rankcount
  have hr : n % rankcount < rankcount := Nat.mod_lt n hR
  simp only [sliceRank]
  generalize n / rankcount = q at hdm ⊢
  generalize n % rankcount = r at hdm hr ⊢
  split
  · rename_i hlt
    have : k / (q + 1) < r := (Nat.div_lt_iff_lt_mul (Nat.succ_pos q)).mpr hlt
    omega
  · rename_i hge
    have hmul : r * (q + 1) = r * q + r := Nat.mul_succ r q
    rcases Nat.eq_zero_or_pos q with hq | hq
    · subst hq
      simp only [Nat.mul_zero, Nat.zero_add] at hdm hmul
      omega
    · have hsub : (rankcount - r) * q = rankcount * q - r * q := Nat.sub_mul _ _ _
      have hle : r * q ≤ rankcount * q := Nat.mul_le_mul_right q (Nat.le_of_lt hr)
      have : (k - r * (q + 1)) / q < rankcount - r := by
        apply (Nat.div_lt_iff_lt_mul hq).mpr
        omega
      omega

theorem assignFrom_rank (n rankcount : Nat) (cs : List PartitionComponent) (k : Nat)
    (hlen : k + cs.length ≤ n) :
    ∀ c ∈ assignFrom n rankcount k cs, ∃ j, j < n ∧ c.rank = (sliceRank n rankcount j : Int) := by
  induction cs generalizing k with
  | nil => intro c hc; cases hc
  | cons d ds ih =>
    intro c hc
    simp only [List.length_cons] at hlen
    rcases List.mem_cons.mp hc with rfl | hc
    · exact ⟨k, by omega, rfl⟩
    · exact ih (k + 1) (by omega) c hc

theorem assignFrom_ids (n rankcount : Nat) (cs : List PartitionComponent) (k : Nat) :
    (assignFrom n rankcount k cs).map (fun c => c.id) = cs.map (fun c => c.id) := by
  induction cs generalizing k with
  | nil => rfl
  | cons d ds ih => simp [assignFrom, ih]

/-- C3. With more than one rank, the rank-slice `performPartition` gives every
node of the partition graph a rank in `[0, rankcount)`, so none is left at the
unassigned value `-1`; the nodes of the result are the nodes of the graph (same
identifiers, in identifier order); nine nodes 0..8 on three ranks get ranks
0,0,0,1,1,1,2,2,2; and the "linear" case of the dispatch of `main` runs this
strategy with the rank count on the collapsed graph. -/
theorem C3_linear_partition_ranks (rankcount : Nat) (graph : PartitionGraph)
    (hR : 1 < rankcount) :
    (∀ c ∈ (SSTLinearPartition.performPartition rankcount graph).comps,
        0 ≤ c.rank ∧ c.rank < (rankcount : Int) ∧ c.rank ≠ UNASSIGNED)
      ∧ ((SSTLinearPartition.performPartition rankcount graph).comps.map (fun c => c.id)).Perm
          (graph.comps.map (fun c => c.id))
      ∧ SSTLinearPartition.performPartition 3 nineNodes =
          { comps := [{ id := 0, rank := 0 }, { id := 1, rank := 0 }, { id := 2, rank := 0 },
                      { id := 3, rank := 1 }, { id := 4, rank := 1 }, { id := 5, rank := 1 },
                      { id := 6, rank := 2 }, { id := 7, rank := 2 }, { id := 8, rank := 2 }] }
      ∧ (∀ (env : Env) (cfg : Config) (g : ConfigGraph), cfg.partitioner = "linear" →
          dispatchPartitioner env cfg rankcount g =
            ([.getCollapsedPartitionGraph, .partition .linear, .annotateRanks],
              .ok (env.annotateRanks g (SSTLinearPartition.performPartition rankcount
                (env.getCollapsedPartitionGraph g))))) := by
  refine ⟨?_, ?_, by decide, fun env cfg g hlin => by simp [dispatchPartitioner, hlin]⟩
  · intro c hc
    simp only [SSTLinearPartition.performPartition] at hc
    obtain ⟨j, hj, hrank⟩ := assignFrom_rank _ rankcount _ 0 (by omega) c hc
    have hlt := sliceRank_lt _ rankcount j (by omega) hj
    have h0 : 0 ≤ c.rank := by rw [hrank]; exact Int.ofNat_nonneg _
    refine ⟨h0, by rw [hrank]; exact_mod_cast hlt, ?_⟩
    simp only [UNASSIGNED]
    omega
  · simp only [SSTLinearPartition.performPartition, assignFrom_ids]
    exact (List.perm_insertionSort _ _).map _

/-- Witness for C3: the nine nodes on three ranks. -/
theorem C3_linear_partition_ranks_witness :
    1 < 3 ∧ ∀ c ∈ (SSTLinearPartition.performPartition 3 nineNodes).comps,
      0 ≤ c.rank ∧ c.rank < ((3 : Nat) : Int) ∧ c.rank ≠ UNASSIGNED :=
  ⟨by decide, (C3_linear_partition_ranks 3 nineNodes (by decide)).1⟩

/-! ## Order of the steps of setup -/

theorem dispatchPartitioner_steps (env : Env) (cfg : Config) (size : Nat) (graph : ConfigGraph) :
    (dispatchPartitioner env cfg size graph).1.all Event.isBuildStep = true := by
  simp only [dispatchPartitioner, GetPartitioner]
  split_ifs
  · rfl
  · rfl
  · rfl
  · cases env.partitioners cfg.partitioner <;> rfl

theorem buildAndPartition_all_steps (env : Env) (cfg : Config) (rank size : Nat) :
    (buildAndPartition env cfg rank size).1.all Event.isBuildStep = true := by
  simp only [buildAndPartition]
  split_ifs
  any_goals rfl
  simpa [Event.isBuildStep] using dispatchPartitioner_steps env cfg size _

theorem buildAndPartition_steps (env : Env) (cfg : Config) (rank size : Nat) :
    ∀ e ∈ (buildAndPartition env cfg rank size).1, e.isBuildStep = true :=
  List.all_eq_true.mp (buildAndPartition_all_steps env cfg rank size)

theorem do_graph_wireup_steps (graph : ConfigGraph) (cfg : Config) (rank : Nat)
    (min_part : SimTime_t) :
    ∀ e ∈ do_graph_wireup graph cfg rank min_part, e.isSyncStep = true := by
  intro e he
  simp only [do_graph_wireup, List.mem_append, List.mem_singleton] at he
  rcases he with ((he | he) | he) | he
  · split_ifs at he
    · cases he
    · rw [List.mem_singleton.mp he]; rfl
  · split_ifs at he
    · rw [List.mem_singleton.mp he]; rfl
    · cases he
  · split_ifs at he
    · rw [List.mem_singleton.mp he]; rfl
    · cases he
  · rw [he]; rfl

theorem dump_partition_steps (cfg : Config) (rank : Nat) :
    ∀ e ∈ dump_partition cfg rank, e.isSyncStep = true := by
  intro e he
  simp only [dump_partition] at he
  split_ifs at he
  · rw [List.mem_singleton.mp he]; rfl
  · cases he

theorem syncAndWireup_steps (env : Env) (cfg : Config) (rank size : Nat) (graph : ConfigGraph)
    (min_part : SimTime_t) :
    ∀ e ∈ (syncAndWireup env cfg rank size graph min_part).trace, e.isSyncStep = true := by
  intro e he
  by_cases hs : 1 < size
  · simp only [syncAndWireup, hs, if_true, List.mem_append, List.mem_cons, List.not_mem_nil,
      or_false] at he
    rcases he with (h | h | h | h | h) | h
    · rw [h]; rfl
    · rw [h]; rfl
    · rw [h]; rfl
    · rw [h]; rfl
    · rw [h]; rfl
    · exact do_graph_wireup_steps _ _ _ _ e h
  · simp only [syncAndWireup, hs, if_false] at he
    exact do_graph_wireup_steps _ _ _ _ e he

theorem validateAndWireup_steps_other_rank (env : Env) (cfg : Config) (rank size : Nat)
    (graph : ConfigGraph) (hrank : rank ≠ 0) :
    ∀ e ∈ (validateAndWireup env cfg rank size graph).trace, e.isSyncStep = true := by
  intro e he
  simp only [validateAndWireup, hrank, if_false, List.mem_append] at he
  rcases he with he | he
  · exact dump_partition_steps cfg rank e he
  · simp only [latencyAndSync, hrank, if_false] at he
    split_ifs at he
    · rcases List.mem_cons.mp he with h | h
      · rw [h]; rfl
      · exact syncAndWireup_steps _ _ _ _ _ _ e h
    · exact syncAndWireup_steps _ _ _ _ _ _ e he

theorem setup_trace_ok (env : Env) (cfg : Config) (rank size : Nat) (tr : List Event)
    (graph : ConfigGraph) (hb : buildAndPartition env cfg rank size = (tr, .ok graph)) :
    setup env cfg rank size =
      { trace := tr ++ (validateAndWireup env cfg rank size graph).trace,
        outcome := (validateAndWireup env cfg rank size graph).outcome } := by
  simp only [setup, hb]

theorem setup_trace_error (env : Env) (cfg : Config) (rank size : Nat) (tr : List Event)
    (code : Int) (hb : buildAndPartition env cfg rank size = (tr, .error code)) :
    setup env cfg rank size = { trace := tr, outcome := .fatal code } := by
  simp only [setup, hb]

/-- C4. On rank 0, when the graph left by the build-and-partition branch fails
`checkRanks(size)`, setup records the failed check and ends with `fatal(1)`: the
trace is the branch, the partition report if configured, the check and the fatal;
it holds no broadcast (of `min_part`, of the graph, of the key tables or of the
configuration) and no wireup.  On a rank other than 0 no `checkRanks` call is
ever recorded. -/
theorem C4_bad_ranks_fatal_before_broadcast (env : Env) (cfg : Config) (size : Nat)
    (tr : List Event) (graph : ConfigGraph)
    (hb : buildAndPartition env cfg 0 size = (tr, .ok graph))
    (hbad : graph.checkRanks size = false) :
    (setup env cfg 0 size).outcome = .fatal 1
      ∧ (setup env cfg 0 size).trace = tr ++ dump_partition cfg 0 ++ [.checkRanks false, .fatal 1]
      ∧ (∀ item, Event.broadcast item ∉ (setup env cfg 0 size).trace)
      ∧ (∀ g r m, Event.performWireUp g r m ∉ (setup env cfg 0 size).trace)
      ∧ (∀ rank, rank ≠ 0 → ∀ ok, Event.checkRanks ok ∉ (setup env cfg rank size).trace) := by
  have hsetup := setup_trace_ok env cfg 0 size tr graph hb
  have hv : validateAndWireup env cfg 0 size graph =
      { trace := dump_partition cfg 0 ++ [.checkRanks false, .fatal 1], outcome := .fatal 1 } := by
    simp [validateAndWireup, hbad]
  rw [hv] at hsetup
  have htr : ∀ e ∈ tr, e.isBuildStep = true := by
    have := buildAndPartition_steps env cfg 0 size
    rw [hb] at this
    exact this
  have hmem : ∀ e ∈ (setup env cfg 0 size).trace,
      e.isBuildStep = true ∨ e.isSyncStep = true ∧ (∃ p, e = .dump_partition p)
        ∨ e = .checkRanks false := by
    intro e he
    rw [hsetup] at he
    simp only [List.mem_append, List.mem_cons, List.not_mem_nil, or_false] at he
    rcases he with he | he | he | he
    · left; exact htr e he
    · right; left
      refine ⟨dump_partition_steps cfg 0 e he, ?_⟩
      simp only [dump_partition] at he
      split_ifs at he
      · exact ⟨_, List.mem_singleton.mp he⟩
      · cases he
    · right; right; exact he
    · left; rw [he]; rfl
  refine ⟨by rw [hsetup], by rw [hsetup, List.append_assoc], ?_, ?_, ?_⟩
  · intro item h
    rcases hmem _ h with h | ⟨_, p, h⟩ | h <;> cases h
  · intro g r m h
    rcases hmem _ h with h | ⟨_, p, h⟩ | h <;> cases h
  · intro rank hrank ok h
    have hall : ∀ e ∈ (setup env cfg rank size).trace,
        e.isBuildStep = true ∨ e.isSyncStep = true := by
      intro e he
      have hsteps := buildAndPartition_steps env cfg rank size
      rcases hbp : buildAndPartition env cfg rank size with ⟨tr2, res⟩
      rw [hbp] at hsteps
      cases res with
      | error code =>
        rw [setup_trace_error env cfg rank size tr2 code hbp] at he
        left; exact hsteps e he
      | ok g2 =>
        rw [setup_trace_ok env cfg rank size tr2 g2 hbp] at he
        rcases List.mem_append.mp he with he | he
        · left; exact hsteps e he
        · right; exact validateAndWireup_steps_other_rank env cfg rank size g2 hrank e he
    rcases hall _ h with h | h <;> cases h

/-- Witness for C4: two ranks and a "simple" partitioner that assigns nothing, so
that every component is still at rank -1 when the ranks are checked. -/
theorem C4_bad_ranks_fatal_before_broadcast_witness :
    buildAndPartition sampleEnv { partitioner := "simple" } 0 2 =
        ([.build, .checkForStructuralErrors false, .setComponentRanks (-1),
          .getCollapsedPartitionGraph, .partition .simple, .annotateRanks],
         .ok (latencyExample.setComponentRanks (-1)))
      ∧ (latencyExample.setComponentRanks (-1)).checkRanks 2 = false
      ∧ (setup sampleEnv { partitioner := "simple" } 0 2).outcome = .fatal 1 :=
  ⟨by rfl, by decide,
    (C4_bad_ranks_fatal_before_broadcast sampleEnv { partitioner := "simple" } 2 _ _
      (by rfl) (by decide)).1⟩

/-- C5. On rank 0 with more than one rank, a partitioner name that is neither one
of the names `main` tests for nor registered with the factory ends setup with a
fatal error: no strategy is invoked, nothing is broadcast, no wireup is done; when
the built graph has no structural error the trace is build, structural check,
`setComponentRanks(-1)`, collapse, fatal. -/
theorem C5_unknown_partitioner_fatal (env : Env) (cfg : Config) (size : Nat)
    (hsize : 1 < size) (hname : recognizedPartitioner env cfg.partitioner = false) :
    (∃ code, (setup env cfg 0 size).outcome = .fatal code)
      ∧ (∀ item, Event.broadcast item ∉ (setup env cfg 0 size).trace)
      ∧ (∀ s, Event.partition s ∉ (setup env cfg 0 size).trace)
      ∧ (∀ g r m, Event.performWireUp g r m ∉ (setup env cfg 0 size).trace)
      ∧ (env.checkForStructuralErrors (generateGraph env cfg size) = false →
          ∃ code, setup env cfg 0 size =
            { trace := [.build, .checkForStructuralErrors false, .setComponentRanks (-1),
                        .getCollapsedPartitionGraph, .fatal code],
              outcome := .fatal code }) := by
  simp only [recognizedPartitioner, builtinPartitioners, Bool.or_eq_false_iff,
    decide_eq_false_iff_not, List.mem_cons, List.mem_singleton, List.not_mem_nil, or_false,
    not_or] at hname
  obtain ⟨⟨hz, hself, hsimple, hrr, hrr2, hlin⟩, hreg⟩ := hname
  have hnone : env.partitioners cfg.partitioner = none := by
    cases h : env.partitioners cfg.partitioner with
    | none => rfl
    | some f => simp [h] at hreg
  have hs1 : ¬ size = 1 := by omega
  by_cases hchk : env.checkForStructuralErrors (generateGraph env cfg size) = true
  · have hsetup : setup env cfg 0 size =
        { trace := [.build, .checkForStructuralErrors true, .fatal (-1)],
          outcome := .fatal (-1) } := by
      simp [setup, buildAndPartition, hs1, hz, hchk]
    rw [hsetup]
    refine ⟨⟨_, rfl⟩, ?_, ?_, ?_, ?_⟩
    · intro item h; simp at h
    · intro s h; simp at h
    · intro g r m h; simp at h
    · intro h; rw [h] at hchk; cases hchk
  · have hsetup : setup env cfg 0 size =
        { trace := [.build, .checkForStructuralErrors false, .setComponentRanks (-1),
                    .getCollapsedPartitionGraph, .fatal (-1)],
          outcome := .fatal (-1) } := by
      simp [setup, buildAndPartition, dispatchPartitioner, GetPartitioner, hs1, hz, hchk, hself,
        hsimple, hrr, hrr2, hlin, hnone]
    rw [hsetup]
    refine ⟨⟨_, rfl⟩, ?_, ?_, ?_, ?_⟩
    · intro item h; simp at h
    · intro s h; simp at h
    · intro g r m h; simp at h
    · intro _; exact ⟨_, rfl⟩

/-- Witness for C5: the name "bogus" on two ranks. -/
theorem C5_unknown_partitioner_fatal_witness :
    1 < 2 ∧ recognizedPartitioner sampleEnv "bogus" = false
      ∧ (∃ code, (setup sampleEnv { partitioner := "bogus" } 0 2).outcome = .fatal code)
      ∧ (∀ item, Event.broadcast item ∉ (setup sampleEnv { partitioner := "bogus" } 0 2).trace) :=
  ⟨by decide, by decide,
    (C5_unknown_partitioner_fatal sampleEnv { partitioner := "bogus" } 2 (by decide)
      (by decide)).1,
    (C5_unknown_partitioner_fatal sampleEnv { partitioner := "bogus" } 2 (by decide)
      (by decide)).2.1⟩

theorem setup_trace_starts (env : Env) (cfg : Config) (rank size : Nat) :
    ∃ more, (setup env cfg rank size).trace = (buildAndPartition env cfg rank size).1 ++ more := by
  rcases hbp : buildAndPartition env cfg rank size with ⟨tr, res⟩
  cases res with
  | error code => exact ⟨[], by rw [setup_trace_error env cfg rank size tr code hbp]; simp⟩
  | ok g => exact ⟨_, by rw [setup_trace_ok env cfg rank size tr g hbp]⟩

theorem structuralCheckFirst_of_head (env : Env) (cfg : Config) (rank size : Nat)
    (hhead : ∃ rest, (buildAndPartition env cfg rank size).1 =
      .build :: .checkForStructuralErrors
        (env.checkForStructuralErrors (generateGraph env cfg size)) :: rest)
    (herr : env.checkForStructuralErrors (generateGraph env cfg size) = true →
      buildAndPartition env cfg rank size =
        ([.build, .checkForStructuralErrors true, .fatal (-1)], .error (-1))) :
    structuralCheckFirst env cfg rank size := by
  obtain ⟨rest, hrest⟩ := hhead
  obtain ⟨more, hmore⟩ := setup_trace_starts env cfg rank size
  refine ⟨⟨rest ++ more, ?_⟩, fun h => ?_⟩
  · rw [hmore, hrest]; rfl
  · exact setup_trace_error env cfg rank size _ _ (herr h)

/-- C6. In each of the three build paths (one rank; several ranks with "zoltan"
and Zoltan available, on rank 0; several ranks with another partitioner, on
rank 0) the trace of setup starts with the build followed by the structural check
of the graph just built, so no rank is set and no strategy runs before the check;
and when the check reports an error the whole trace is build, check, `fatal(-1)`:
no rank assignment, partitioning, dump, broadcast or wireup follows. -/
theorem C6_structural_check_first (env : Env) (cfg : Config) :
    (∀ rank, structuralCheckFirst env cfg rank 1)
      ∧ (∀ size, size ≠ 1 → cfg.partitioner = "zoltan" → env.HAVE_ZOLTAN = true →
          structuralCheckFirst env cfg 0 size)
      ∧ (∀ size, size ≠ 1 → cfg.partitioner ≠ "zoltan" →
          structuralCheckFirst env cfg 0 size) := by
  refine ⟨?_, ?_, ?_⟩
  · intro rank
    have herr : env.checkForStructuralErrors (generateGraph env cfg 1) = true →
        buildAndPartition env cfg rank 1 =
          ([.build, .checkForStructuralErrors true, .fatal (-1)], .error (-1)) := by
      intro hchk
      simp [buildAndPartition, hchk]
    apply structuralCheckFirst_of_head _ _ _ _ _ herr
    cases hchk : env.checkForStructuralErrors (generateGraph env cfg 1) with
    | true => exact ⟨[.fatal (-1)], by rw [herr hchk]⟩
    | false => exact ⟨[.setComponentRanks 0], by simp [buildAndPartition, hchk]⟩
  · intro size hs hz hhave
    have herr : env.checkForStructuralErrors (generateGraph env cfg size) = true →
        buildAndPartition env cfg 0 size =
          ([.build, .checkForStructuralErrors true, .fatal (-1)], .error (-1)) := by
      intro hchk
      simp [buildAndPartition, hs, hz, hhave, hchk]
    apply structuralCheckFirst_of_head _ _ _ _ _ herr
    cases hchk : env.checkForStructuralErrors (generateGraph env cfg size) with
    | true => exact ⟨[.fatal (-1)], by rw [herr hchk]⟩
    | false =>
      exact ⟨[.getCollapsedPartitionGraph, .partition .zoltan, .annotateRanks],
        by simp [buildAndPartition, hs, hz, hhave, hchk]⟩
  · intro size hs hz
    have herr : env.checkForStructuralErrors (generateGraph env cfg size) = true →
        buildAndPartition env cfg 0 size =
          ([.build, .checkForStructuralErrors true, .fatal (-1)], .error (-1)) := by
      intro hchk
      simp [buildAndPartition, hs, hz, hchk]
    apply structuralCheckFirst_of_head _ _ _ _ _ herr
    cases hchk : env.checkForStructuralErrors (generateGraph env cfg size) with
    | true => exact ⟨[.fatal (-1)], by rw [herr hchk]⟩
    | false =>
      by_cases hself : cfg.partitioner = "self"
      · exact ⟨[], by simp [buildAndPartition, hs, hz, hchk, hself]⟩
      · exact ⟨.setComponentRanks (-1) :: (dispatchPartitioner env cfg size
            ((generateGraph env cfg size).setComponentRanks (-1))).1,
          by simp [buildAndPartition, hs, hz, hchk, hself]⟩

/-- Witness for C6: a model description with a dangling link, on one rank, on
rank 0 of two ranks with Zoltan, and on rank 0 of two ranks with "linear". -/
theorem C6_structural_check_first_witness :
    danglingEnv.checkForStructuralErrors (generateGraph danglingEnv {} 1) = true
      ∧ structuralCheckFirst danglingEnv {} 0 1
      ∧ (2 ≠ 1 ∧ ({ partitioner := "zoltan" } : Config).partitioner = "zoltan"
          ∧ zoltanEnv.HAVE_ZOLTAN = true
          ∧ structuralCheckFirst zoltanEnv { partitioner := "zoltan" } 0 2)
      ∧ (2 ≠ 1 ∧ ({} : Config).partitioner ≠ "zoltan" ∧ structuralCheckFirst danglingEnv {} 0 2) :=
  ⟨by decide, (C6_structural_check_first danglingEnv {}).1 0,
    ⟨by decide, rfl, rfl,
      (C6_structural_check_first zoltanEnv { partitioner := "zoltan" }).2.1 2 (by decide) rfl rfl⟩,
    ⟨by decide, by decide,
      (C6_structural_check_first danglingEnv {}).2.2 2 (by decide) (by decide)⟩⟩

theorem latencyAndSync_not_fatal (env : Env) (cfg : Config) (rank size : Nat)
    (graph : ConfigGraph) (code : Int) :
    (latencyAndSync env cfg rank size graph).outcome ≠ .fatal code := by
  simp only [latencyAndSync, syncAndWireup]
  split_ifs
  · cases computeMinPart graph <;> simp
  · simp
  · simp

/-- C7. On rank 0 with more than one rank, the partitioner "self" and a built
graph without structural error, the build-and-partition branch records only the
build and the structural check (no `setComponentRanks`, no collapse, no strategy,
no `annotateRanks`) and leaves the graph exactly as the build returned it, so
every component keeps its rank; and when every rank of that graph is in
`[0, size)` the rank check succeeds and setup goes on to the latency step
without a fatal error. -/
theorem C7_self_partitioner_keeps_ranks (env : Env) (cfg : Config) (size : Nat)
    (hsize : 1 < size) (hself : cfg.partitioner = "self")
    (hok : env.checkForStructuralErrors (generateGraph env cfg size) = false) :
    buildAndPartition env cfg 0 size =
        ([.build, .checkForStructuralErrors false], .ok (generateGraph env cfg size))
      ∧ ((∀ c ∈ (generateGraph env cfg size).comps, 0 ≤ c.rank ∧ c.rank < (size : Int)) →
          (generateGraph env cfg size).checkRanks size = true
          ∧ (setup env cfg 0 size).trace =
              [.build, .checkForStructuralErrors false] ++ dump_partition cfg 0
                ++ .checkRanks true ::
                  (latencyAndSync env cfg 0 size (generateGraph env cfg size)).trace
          ∧ (setup env cfg 0 size).outcome =
              (latencyAndSync env cfg 0 size (generateGraph env cfg size)).outcome
          ∧ ∀ code, (setup env cfg 0 size).outcome ≠ .fatal code) := by
  have hs1 : ¬ size = 1 := by omega
  have hb : buildAndPartition env cfg 0 size =
      ([.build, .checkForStructuralErrors false], .ok (generateGraph env cfg size)) := by
    simp [buildAndPartition, hs1, hself, hok]
  refine ⟨hb, fun hranks => ?_⟩
  have hcr : (generateGraph env cfg size).checkRanks size = true :=
    (checkRanks_iff _ _).mpr hranks
  have hsetup := setup_trace_ok env cfg 0 size _ _ hb
  have hv : validateAndWireup env cfg 0 size (generateGraph env cfg size) =
      { trace := dump_partition cfg 0 ++ .checkRanks true ::
          (latencyAndSync env cfg 0 size (generateGraph env cfg size)).trace,
        outcome := (latencyAndSync env cfg 0 size (generateGraph env cfg size)).outcome } := by
    simp [validateAndWireup, hcr]
  rw [hv] at hsetup
  refine ⟨hcr, by rw [hsetup, List.append_assoc], by rw [hsetup], fun code => ?_⟩
  rw [hsetup]
  exact latencyAndSync_not_fatal env cfg 0 size _ code

/-- Witness for C7: the example graph (ranks 0, 1, 0) with "self" on two ranks. -/
theorem C7_self_partitioner_keeps_ranks_witness :
    1 < 2 ∧ ({ partitioner := "self" } : Config).partitioner = "self"
      ∧ sampleEnv.checkForStructuralErrors
          (generateGraph sampleEnv { partitioner := "self" } 2) = false
      ∧ buildAndPartition sampleEnv { partitioner := "self" } 0 2 =
          ([.build, .checkForStructuralErrors false],
            .ok (generateGraph sampleEnv { partitioner := "self" } 2)) :=
  ⟨by decide, rfl, by decide,
    (C7_self_partitioner_keeps_ranks sampleEnv { partitioner := "self" } 2 (by decide) rfl
      (by decide)).1⟩

/-! ## Identity registry -/

theorem find_eq_none_of_absent (m : ComponentInfoMap) (infoKey : ComponentInfo)
    (h : ∀ r ∈ m.dataByID, r.id ≠ infoKey.id) : m.find infoKey = none := by
  simp only [ComponentInfoMap.find, List.find?_eq_none, ComponentInfo.EqualsID, beq_iff_eq]
  exact h

theorem find_eq_some_of_mem (records : List ComponentInfo) (k : ComponentId_t)
    (hnodup : (records.map (fun r => r.id)).Nodup) (r : ComponentInfo) (hr : r ∈ records)
    (hid : r.id = k) :
    records.find? (fun x => x.id == k) = some r := by
  induction records with
  | nil => cases hr
  | cons x xs ih =>
    simp only [List.map_cons, List.nodup_cons, List.mem_map, not_exists, not_and] at hnodup
    rcases List.mem_cons.mp hr with rfl | hmem
    · simp [hid]
    · have hne : x.id ≠ k := by
        intro hx
        exact hnodup.1 r hmem (by rw [hid, hx])
      have hb : (x.id == k) = false := by simp [hne]
      rw [List.find?_cons, hb]
      exact ih hnodup.2 hmem

/-- C8. For a registry whose elements have pairwise different identifiers (as in
every `unordered_set` compared with `EqualsID`) and every key: `getByID` returns
`NULL` when no registered record has the identifier `COMPONENT_ID_MASK(key)`; and
for the registered record `r` with that identifier it returns `r` when
`SUBCOMPONENT_ID_MASK(key)` is 0 and `r->findSubComponent(key)` otherwise. -/
theorem C8_getByID_cases (layout : IdLayout)
    (findSubComponent : ComponentInfo → ComponentId_t → Option ComponentInfo)
    (m : ComponentInfoMap) (key : ComponentId_t) (hwf : m.uniqueIds) :
    ((∀ r ∈ m.dataByID, r.id ≠ layout.COMPONENT_ID_MASK key) →
        m.getByID layout findSubComponent key = none)
      ∧ (∀ r ∈ m.dataByID, r.id = layout.COMPONENT_ID_MASK key →
          (layout.SUBCOMPONENT_ID_MASK key = 0 →
            m.getByID layout findSubComponent key = some r)
          ∧ (layout.SUBCOMPONENT_ID_MASK key ≠ 0 →
            m.getByID layout findSubComponent key = findSubComponent r key)) := by
  constructor
  · intro habs
    simp only [ComponentInfoMap.getByID]
    rw [find_eq_none_of_absent m _ habs]
  · intro r hr hid
    have hfind : m.find { id := layout.COMPONENT_ID_MASK key, name := "" } = some r :=
      find_eq_some_of_mem m.dataByID _ hwf r hr hid
    constructor
    · intro h0
      simp only [ComponentInfoMap.getByID, hfind, h0, ne_eq, not_true_eq_false, if_false]
    · intro hsub
      simp only [ComponentInfoMap.getByID, hfind, ne_eq, hsub, not_false_eq_true, if_true]

/-- Witness for C8: the one-record registry, keys 5 (found), 6 (absent). -/
theorem C8_getByID_cases_witness :
    registryExample.uniqueIds
      ∧ registryExample.getByID (fieldLayout 32) sampleFindSubComponent 6 = none
      ∧ registryExample.getByID (fieldLayout 32) sampleFindSubComponent 5
          = some { id := 5, name := "cpu", type := "t.cpu" } :=
  have hwf : registryExample.uniqueIds := by decide
  ⟨hwf,
    (C8_getByID_cases (fieldLayout 32) sampleFindSubComponent registryExample 6 hwf).1
      (by decide),
    ((C8_getByID_cases (fieldLayout 32) sampleFindSubComponent registryExample 5 hwf).2
      { id := 5, name := "cpu", type := "t.cpu" } (by decide) (by decide)).1 (by decide)⟩

/-- C9, as stated, fails: the registry already holds a record with identifier 5,
and inserting another record with identifier 5 returns the registry unchanged;
the new record is not in it, and nothing else is returned to the caller. -/
theorem C9_duplicate_insert_is_silent :
    (∃ r ∈ registryExample.dataByID, r.id = duplicateRecord.id ∧ r ≠ duplicateRecord)
      ∧ registryExample.insert duplicateRecord = registryExample
      ∧ duplicateRecord ∉ (registryExample.insert duplicateRecord).dataByID := by
  decide

/-- C9, amended. Inserting a record whose identifier is already the identifier of
a registered record leaves the registry as it is: the registered records are
kept, the new record is added only if it was already an element, and every
`getByID` answers as before. -/
theorem C9_insert_existing_id_unchanged (m : ComponentInfoMap) (info : ComponentInfo)
    (hdup : ∃ r ∈ m.dataByID, r.id = info.id) :
    m.insert info = m
      ∧ (info ∈ (m.insert info).dataByID ↔ info ∈ m.dataByID)
      ∧ (∀ layout findSubComponent key,
          (m.insert info).getByID layout findSubComponent key
            = m.getByID layout findSubComponent key) := by
  have hins : m.insert info = m := by
    obtain ⟨r, hr, hid⟩ := hdup
    have hany : m.dataByID.any (fun r => r.EqualsID info) = true :=
      List.any_eq_true.mpr ⟨r, hr, by simp [ComponentInfo.EqualsID, hid]⟩
    simp only [ComponentInfoMap.insert, hany, if_true]
  refine ⟨hins, by rw [hins], fun layout findSubComponent key => by rw [hins]⟩

/-- Witness for C9, amended: the duplicate of identifier 5. -/
theorem C9_insert_existing_id_unchanged_witness :
    (∃ r ∈ registryExample.dataByID, r.id = duplicateRecord.id)
      ∧ registryExample.insert duplicateRecord = registryExample :=
  ⟨by decide, (C9_insert_existing_id_unchanged registryExample duplicateRecord (by decide)).1⟩

theorem insert_uniqueIds (m : ComponentInfoMap) (info : ComponentInfo) (h : m.uniqueIds) :
    (m.insert info).uniqueIds := by
  unfold ComponentInfoMap.insert
  split
  · exact h
  · rename_i hany
    simp only [ComponentInfoMap.uniqueIds, List.map_append, List.map_cons, List.map_nil]
    rw [List.nodup_append]
    refine ⟨h, List.nodup_singleton _, ?_⟩
    intro a ha hb
    rw [List.mem_singleton] at hb
    obtain ⟨r, hr, hid⟩ := List.mem_map.mp ha
    apply hany
    exact List.any_eq_true.mpr ⟨r, hr, by simp [ComponentInfo.EqualsID, hid, hb]⟩

theorem reachable_uniqueIds (m : ComponentInfoMap) (h : Reachable m) : m.uniqueIds := by
  induction h with
  | init => exact List.nodup_nil
  | insert m info _ ih => exact insert_uniqueIds m info ih
  | clear m _ _ => exact List.nodup_nil

theorem shared_base_not_unique (layout : IdLayout) (x y : ComponentId_t) (hne : x ≠ y)
    (hmask : layout.COMPONENT_ID_MASK x = layout.COMPONENT_ID_MASK y) :
    Reachable ((({} : ComponentInfoMap).insert { id := x }).insert { id := y })
      ∧ ¬ ((({} : ComponentInfoMap).insert { id := x }).insert { id := y }).uniqueBaseIds
          layout := by
  refine ⟨Reachable.insert _ _ (Reachable.insert _ _ Reachable.init), fun h => ?_⟩
  have hreg : ((({} : ComponentInfoMap).insert { id := x }).insert { id := y }).dataByID
      = [{ id := x }, { id := y }] := by
    simp [ComponentInfoMap.insert, ComponentInfo.EqualsID, hne]
  have hxy := h { id := x } (by rw [hreg]; simp) { id := y } (by rw [hreg]; simp) hmask
  exact hne (congrArg ComponentInfo.id hxy)

/-- C10, as stated, fails: with 32-bit base fields, the registry built by inserting
identifier 5 and then identifier `2^32 + 5` is reachable and holds two distinct
records whose identifiers have the same base component ID field, 5. -/
theorem C10_base_ids_not_unique :
    ¬ (∀ m, Reachable m → m.uniqueBaseIds (fieldLayout 32)) := by
  intro h
  have hreach : Reachable sharedBaseRegistry :=
    Reachable.insert _ _ (Reachable.insert _ _ Reachable.init)
  have hab := h sharedBaseRegistry hreach
    { id := 5, name := "cpu" } (by decide) { id := 2 ^ 32 + 5, name := "cpu:sub" } (by decide)
    (by decide)
  exact absurd hab (by decide)

/-- C10, amended. In every registry reachable from the empty registry by `insert`
and `clear`, no two elements have the same identifier; hence two registered
records with the same identifier are the same record, and among the registered
records whose identifier is a bare base ID (`COMPONENT_ID_MASK(id) = id`) no two
distinct ones have the same base component ID field. -/
theorem C10_reachable_ids_unique (m : ComponentInfoMap) (h : Reachable m) :
    m.uniqueIds
      ∧ (∀ a ∈ m.dataByID, ∀ b ∈ m.dataByID, a.id = b.id → a = b)
      ∧ (∀ layout : IdLayout, ∀ a ∈ m.dataByID, ∀ b ∈ m.dataByID,
          layout.COMPONENT_ID_MASK a.id = a.id → layout.COMPONENT_ID_MASK b.id = b.id →
          layout.COMPONENT_ID_MASK a.id = layout.COMPONENT_ID_MASK b.id → a = b) := by
  have hu := reachable_uniqueIds m h
  have hinj : ∀ a ∈ m.dataByID, ∀ b ∈ m.dataByID, a.id = b.id → a = b := by
    intro a ha b hb hid
    exact List.inj_on_of_nodup_map hu ha hb hid
  refine ⟨hu, hinj, ?_⟩
  intro layout a ha b hb hma hmb hmask
  exact hinj a ha b hb (by rw [← hma, ← hmb, hmask])

/-- Witness for C10, amended: the registry with identifiers 5 and `2^32 + 5`. -/
theorem C10_reachable_ids_unique_witness :
    Reachable sharedBaseRegistry ∧ sharedBaseRegistry.uniqueIds :=
  have hreach : Reachable sharedBaseRegistry :=
    Reachable.insert _ _ (Reachable.insert _ _ Reachable.init)
  ⟨hreach, (C10_reachable_ids_unique sharedBaseRegistry hreach).1⟩

/-! ## Registry teardown -/

theorem nodup_of_uniqueIds (m : ComponentInfoMap) (hwf : m.uniqueIds) : m.dataByID.Nodup :=
  List.Nodup.of_map _ hwf

/-- C11. For a registry whose elements have pairwise different identifiers (as in
every `unordered_set` compared with `EqualsID`), `clear` deletes exactly the
records of the registry, each of them once, and leaves a registry for which
`empty()` is true and `getByID` answers `NULL` for every identifier; on a
registry that is already empty it deletes nothing and leaves it empty; and a
second `clear` deletes nothing and leaves the result of the first. -/
theorem C11_clear_destroys_once (m : ComponentInfoMap) (hwf : m.uniqueIds) :
    m.clear.1 = m.dataByID
      ∧ (∀ r ∈ m.dataByID, m.clear.1.count r = 1)
      ∧ (∀ r, r ∉ m.dataByID → m.clear.1.count r = 0)
      ∧ m.clear.2.empty = true
      ∧ (∀ layout findSubComponent key, m.clear.2.getByID layout findSubComponent key = none)
      ∧ (m.empty = true → m.clear = ([], m))
      ∧ m.clear.2.clear = ([], m.clear.2) := by
  refine ⟨rfl, ?_, ?_, rfl, ?_, ?_, rfl⟩
  · intro r hr
    exact List.count_eq_one_of_mem (nodup_of_uniqueIds m hwf) hr
  · intro r hr
    exact List.count_eq_zero_of_not_mem hr
  · intro layout findSubComponent key
    rfl
  · intro hempty
    have hnil : m.dataByID = [] := by
      simpa [ComponentInfoMap.empty, List.isEmpty_iff] using hempty
    cases m with
    | mk data =>
      simp only at hnil
      subst hnil
      rfl

/-- Witness for C11: the registry with identifiers 5 and `2^32 + 5`. -/
theorem C11_clear_destroys_once_witness :
    sharedBaseRegistry.uniqueIds
      ∧ sharedBaseRegistry.clear.1 = sharedBaseRegistry.dataByID
      ∧ sharedBaseRegistry.clear.2.empty = true :=
  have hwf : sharedBaseRegistry.uniqueIds := by decide
  ⟨hwf, (C11_clear_destroys_once sharedBaseRegistry hwf).1,
    (C11_clear_destroys_once sharedBaseRegistry hwf).2.2.2.1⟩

/-! ## Identifier round trip -/

/-- C12. For every width of the base field, every base ID that fits the base
field and every subcomponent ID, 0 included, composing the two and extracting the
base field with `COMPONENT_ID_MASK` and the subcomponent field with
`SUBCOMPONENT_ID_MASK` gives back the pair; with subcomponent ID 0 the identifier
is the base ID itself; and when the subcomponent ID fits a field of `subBits`
bits the identifier fits `bits + subBits` bits. -/
theorem C12_identifier_round_trip (bits : Nat) (base sub : ComponentId_t)
    (hbase : base < 2 ^ bits) :
    (fieldLayout bits).COMPONENT_ID_MASK (composeId bits base sub) = base
      ∧ (fieldLayout bits).SUBCOMPONENT_ID_MASK (composeId bits base sub) = sub
      ∧ composeId bits base 0 = base
      ∧ (∀ subBits, sub < 2 ^ subBits → composeId bits base sub < 2 ^ (bits + subBits)) := by
  have hpos : 0 < 2 ^ bits := Nat.pos_of_ne_zero (by
    intro h
    rw [h] at hbase
    exact Nat.not_lt_zero _ hbase)
  refine ⟨?_, ?_, ?_, ?_⟩
  · show (sub * 2 ^ bits + base) % 2 ^ bits = base
    rw [Nat.add_comm, Nat.add_mul_mod_self_right]
    exact Nat.mod_eq_of_lt hbase
  · show (sub * 2 ^ bits + base) / 2 ^ bits = sub
    rw [Nat.add_comm, Nat.add_mul_div_right _ _ hpos, Nat.div_eq_of_lt hbase, Nat.zero_add]
  · show 0 * 2 ^ bits + base = base
    rw [Nat.zero_mul, Nat.zero_add]
  · intro subBits hsub
    show sub * 2 ^ bits + base < 2 ^ (bits + subBits)
    have h1 : (sub + 1) * 2 ^ bits ≤ 2 ^ subBits * 2 ^ bits :=
      Nat.mul_le_mul_right _ hsub
    have h2 : (sub + 1) * 2 ^ bits = sub * 2 ^ bits + 2 ^ bits := Nat.succ_mul _ _
    have h3 : 2 ^ (bits + subBits) = 2 ^ subBits * 2 ^ bits := by
      rw [Nat.pow_add, Nat.mul_comm]
    rw [h3]
    have hb : base < 2 ^ bits := hbase
    calc sub * 2 ^ bits + base < sub * 2 ^ bits + 2 ^ bits := Nat.add_lt_add_left hb _
      _ = (sub + 1) * 2 ^ bits := h2.symm
      _ ≤ 2 ^ subBits * 2 ^ bits := h1

/-- Witness for C12: base ID 5 and subcomponent ID 1 with a 32-bit base field. -/
theorem C12_identifier_round_trip_witness :
    (5 : ComponentId_t) < 2 ^ 32
      ∧ composeId 32 5 1 = 2 ^ 32 + 5
      ∧ (fieldLayout 32).COMPONENT_ID_MASK (composeId 32 5 1) = 5
      ∧ (fieldLayout 32).SUBCOMPONENT_ID_MASK (composeId 32 5 1) = 1 :=
  ⟨by decide, by decide, (C12_identifier_round_trip 32 5 1 (by decide)).1,
    (C12_identifier_round_trip 32 5 1 (by decide)).2.1⟩

/-! ## The partition report -/

theorem dumpComponents_eq (i : Nat) (comps : List ConfigComponent) :
    dumpComponents i comps = (blockComponents comps i).flatMap componentLines := by
  induction comps with
  | nil => rfl
  | cons j rest ih =>
    by_cases h : j.rank = (i : Int)
    · simp only [dumpComponents, blockComponents, h, if_true, decide_True, List.filter_cons,
        List.flatMap_cons] at ih ⊢
      rw [ih]
    · simp only [dumpComponents, blockComponents, h, if_false, decide_False, List.filter_cons,
        List.nil_append] at ih ⊢
      simpa using ih

theorem dumpRanks_eq (comps : List ConfigComponent) (remaining i : Nat) :
    dumpRanks comps remaining i = (List.range' i remaining).flatMap (rankBlock comps) := by
  induction remaining generalizing i with
  | zero => rfl
  | succ n ih =>
    simp only [dumpRanks, List.range'_succ, List.flatMap_cons, rankBlock, ih, dumpComponents_eq,
      List.cons_append]

theorem mem_blockComponents (comps : List ConfigComponent) (i : Nat) (c : ConfigComponent) :
    c ∈ blockComponents comps i ↔ c ∈ comps ∧ c.rank = (i : Int) := by
  simp [blockComponents, List.mem_filter]

/-- C13. `dump_partition` writes a file exactly when the rank is 0 and the dump
path is not empty, which is also when the trace records the report; the lines
written are, for each rank `i` from 0 to `size - 1` in increasing order, the line
"Rank: i Component List:" followed by the name line and the four property lines
of exactly the components whose rank is `i`, in component-map order.  Hence a
component is listed in the block of rank `i < size` exactly when its rank is
`i`: a component with rank in `[0, size)` is in the block of its own rank and in
no other, and a component with a rank outside that range is in no block. -/
theorem C13_partition_report (cfg : Config) (graph : ConfigGraph) (rank size : Nat) :
    ((dump_partition_file cfg graph rank size).isSome = true ↔
        rank = 0 ∧ cfg.dump_component_graph_file ≠ "")
      ∧ (dump_partition cfg rank =
          (dump_partition_file cfg graph rank size).toList.map
            (fun file => Event.dump_partition file.1))
      ∧ (∀ file, dump_partition_file cfg graph rank size = some file →
          file.1 = cfg.dump_component_graph_file ∧ file.2 = reportBlocks graph.comps size)
      ∧ (∀ c ∈ graph.comps, ∀ i, i < size →
          (c ∈ blockComponents graph.comps i ↔ c.rank = (i : Int)))
      ∧ (∀ c ∈ graph.comps, 0 ≤ c.rank → c.rank < (size : Int) →
          ∃ i, i < size ∧ c ∈ blockComponents graph.comps i
            ∧ ∀ k, k < size → c ∈ blockComponents graph.comps k → k = i)
      ∧ (∀ c ∈ graph.comps, (c.rank < 0 ∨ (size : Int) ≤ c.rank) →
          ∀ i, i < size → c ∉ blockComponents graph.comps i) := by
  refine ⟨?_, ?_, ?_, ?_, ?_, ?_⟩
  · by_cases h : cfg.dump_component_graph_file ≠ "" ∧ rank = 0
    · simp [dump_partition_file, h]
    · simp only [dump_partition_file, h, if_false, Option.isSome_none]
      constructor
      · intro hf; cases hf
      · intro hc; exact absurd ⟨hc.2, hc.1⟩ h
  · by_cases h : cfg.dump_component_graph_file ≠ "" ∧ rank = 0
    · simp [dump_partition_file, dump_partition, h]
    · simp [dump_partition_file, dump_partition, h]
  · intro file hfile
    by_cases h : cfg.dump_component_graph_file ≠ "" ∧ rank = 0
    · rw [dump_partition_file, if_pos h] at hfile
      cases hfile
      refine ⟨rfl, ?_⟩
      simp only [reportBlocks, List.range_eq_range']
      exact dumpRanks_eq graph.comps size 0
    · simp [dump_partition_file, h] at hfile
  · intro c hc i _
    rw [mem_blockComponents]
    exact ⟨fun h => h.2, fun h => ⟨hc, h⟩⟩
  · intro c hc h0 hlt
    refine ⟨c.rank.toNat, ?_, ?_, ?_⟩
    · omega
    · rw [mem_blockComponents]
      exact ⟨hc, by omega⟩
    · intro k _ hk
      rw [mem_blockComponents] at hk
      omega
  · intro c _ hout i hi hmem
    rw [mem_blockComponents] at hmem
    omega

/-- Witness for C13: the report of a three-component graph on two ranks; the
component left at rank -1 is in no block. -/
theorem C13_partition_report_witness :
    dump_partition_file { dump_component_graph_file := "part.txt" } reportExample 0 2 =
        some ("part.txt",
          ["Rank: 0 Component List:", "   a (ID=0)", "      -> type      t.cpu",
           "      -> weight    1", "      -> linkcount 0", "      -> rank      0",
           "Rank: 1 Component List:", "   b (ID=1)", "      -> type      t.mem",
           "      -> weight    1", "      -> linkcount 2", "      -> rank      1"])
      ∧ dump_partition_file { dump_component_graph_file := "part.txt" } reportExample 1 2 = none
      ∧ ((dump_partition_file { dump_component_graph_file := "part.txt" } reportExample 0
            2).isSome = true ↔
          0 = 0 ∧ ({ dump_component_graph_file := "part.txt" } : Config).dump_component_graph_file
            ≠ "") :=
  ⟨by decide, by decide,
    (C13_partition_report { dump_component_graph_file := "part.txt" } reportExample 0 2).1⟩

/-! ## Order of the files written -/

theorem occursBefore_append (p q : Event → Bool) (xs ys : List Event) :
    occursBefore p q (xs ++ ys) =
      (occursBefore p q xs || (xs.any p && ys.any q) || occursBefore p q ys) := by
  induction xs with
  | nil => simp [occursBefore]
  | cons x xs ih =>
    have hstep : occursBefore p q (x :: xs ++ ys) =
        ((p x && (xs ++ ys).any q) || occursBefore p q (xs ++ ys)) := rfl
    rw [hstep, ih, List.any_append]
    simp only [occursBefore, List.any_cons]
    cases p x <;> cases xs.any q <;> cases ys.any q <;> cases occursBefore p q xs <;>
      cases xs.any p <;> cases occursBefore p q ys <;> rfl

theorem occursBefore_of_no_first (p q : Event → Bool) (xs : List Event)
    (h : xs.any p = false) : occursBefore p q xs = false := by
  induction xs with
  | nil => rfl
  | cons x xs ih =>
    simp only [List.any_cons, Bool.or_eq_false_iff] at h
    simp only [occursBefore, h.1, ih h.2, Bool.false_and, Bool.or_false]

theorem occursBefore_of_no_second (p q : Event → Bool) (xs : List Event)
    (h : xs.any q = false) : occursBefore p q xs = false := by
  induction xs with
  | nil => rfl
  | cons x xs ih =>
    simp only [List.any_cons, Bool.or_eq_false_iff] at h
    simp only [occursBefore, h.2, ih h.2, Bool.and_false, Bool.or_false]

theorem any_false_of_forall (p : Event → Bool) (xs : List Event) (h : ∀ e ∈ xs, p e = false) :
    xs.any p = false := by
  induction xs with
  | nil => rfl
  | cons x xs ih =>
    simp only [List.any_cons, h x (List.mem_cons_self _ _),
      ih (fun e he => h e (List.mem_cons_of_mem _ he)), Bool.or_false]

theorem buildStep_not_export (e : Event) (h : e.isBuildStep = true) : e.isExport = false := by
  cases e <;> first | rfl | cases h

theorem buildStep_not_report (e : Event) (h : e.isBuildStep = true) : e.isReport = false := by
  cases e <;> first | rfl | cases h

theorem buildAndPartition_no_export (env : Env) (cfg : Config) (rank size : Nat) :
    (buildAndPartition env cfg rank size).1.any Event.isExport = false :=
  any_false_of_forall _ _ (fun e he =>
    buildStep_not_export e (buildAndPartition_steps env cfg rank size e he))

theorem dump_partition_no_export (cfg : Config) (rank : Nat) :
    (dump_partition cfg rank).any Event.isExport = false := by
  simp only [dump_partition]
  split_ifs <;> rfl

theorem do_graph_wireup_no_report (graph : ConfigGraph) (cfg : Config) (rank : Nat)
    (min_part : SimTime_t) :
    (do_graph_wireup graph cfg rank min_part).any Event.isReport = false := by
  simp only [do_graph_wireup]
  split_ifs <;> rfl

theorem syncAndWireup_split (env : Env) (cfg : Config) (rank size : Nat) (graph : ConfigGraph)
    (min_part : SimTime_t) :
    ∃ P W, (syncAndWireup env cfg rank size graph min_part).trace = P ++ W
      ∧ P.any Event.isExport = false ∧ W.any Event.isReport = false := by
  by_cases hs : 1 < size
  · exact ⟨[.broadcast .graph, .broadcast .keyMap, .broadcast .keyMapReverse,
        .broadcast .nextKeyID, .broadcast .cfg],
      do_graph_wireup (if rank = 0 then graph else env.received.graph)
        (if rank = 0 then cfg else env.received.cfg) rank min_part,
      by simp only [syncAndWireup, hs, if_true], rfl, do_graph_wireup_no_report _ _ _ _⟩
  · exact ⟨[], do_graph_wireup graph cfg rank min_part,
      by simp only [syncAndWireup, hs, if_false, List.nil_append], rfl,
      do_graph_wireup_no_report _ _ _ _⟩

theorem latencyAndSync_split (env : Env) (cfg : Config) (rank size : Nat) (graph : ConfigGraph) :
    ∃ P W, (latencyAndSync env cfg rank size graph).trace = P ++ W
      ∧ P.any Event.isExport = false ∧ W.any Event.isReport = false := by
  by_cases hs : 1 < size
  · by_cases hr : rank = 0
    · cases hc : computeMinPart graph with
      | none => exact ⟨[], [], by simp [latencyAndSync, hs, hr, hc], rfl, rfl⟩
      | some m =>
        obtain ⟨P, W, hPW, hP, hW⟩ := syncAndWireup_split env cfg rank size graph m
        refine ⟨.broadcast .min_part :: P, W, ?_, ?_, hW⟩
        · subst hr
          simp only [latencyAndSync, hs, if_true, hc, hPW, List.cons_append]
        · simp only [List.any_cons, hP, Bool.or_false]; rfl
    · obtain ⟨P, W, hPW, hP, hW⟩ :=
        syncAndWireup_split env cfg rank size graph env.received.min_part
      refine ⟨.broadcast .min_part :: P, W, ?_, ?_, hW⟩
      · simp only [latencyAndSync, hs, hr, if_true, if_false, hPW, List.cons_append]
      · simp only [List.any_cons, hP, Bool.or_false]; rfl
  · obtain ⟨P, W, hPW, hP, hW⟩ := syncAndWireup_split env cfg rank size graph NO_BOUND
    exact ⟨P, W, by simp only [latencyAndSync, hs, if_false, hPW], hP, hW⟩

theorem validateAndWireup_split (env : Env) (cfg : Config) (rank size : Nat)
    (graph : ConfigGraph) :
    ∃ P W, (validateAndWireup env cfg rank size graph).trace = P ++ W
      ∧ P.any Event.isExport = false ∧ W.any Event.isReport = false := by
  obtain ⟨P, W, hPW, hP, hW⟩ := latencyAndSync_split env cfg rank size graph
  have hd := dump_partition_no_export cfg rank
  by_cases hr : rank = 0
  · by_cases hc : graph.checkRanks size = true
    · refine ⟨dump_partition cfg rank ++ .checkRanks true :: P, W, ?_, ?_, hW⟩
      · simp only [validateAndWireup, hr, if_true, hc, List.append_assoc, List.cons_append]
        rw [← hr, hPW]
      · simp only [List.any_append, List.any_cons, hd, hP, Bool.or_false, Bool.false_or]; rfl
    · refine ⟨dump_partition cfg rank ++ [.checkRanks false, .fatal 1], [], ?_, ?_, rfl⟩
      · rw [Bool.not_eq_true] at hc
        simp [validateAndWireup, hr, hc]
      · simp only [List.any_append, hd, Bool.false_or]; rfl
  · refine ⟨dump_partition cfg rank ++ P, W, ?_, ?_, hW⟩
    · simp only [validateAndWireup, hr, if_false, hPW, List.append_assoc]
    · simp only [List.any_append, hd, hP, Bool.or_false]

theorem validateAndWireup_rank0_head (env : Env) (cfg : Config) (size : Nat)
    (graph : ConfigGraph) :
    ∃ rest, (validateAndWireup env cfg 0 size graph).trace = dump_partition cfg 0 ++ rest := by
  cases hc : graph.checkRanks size with
  | true =>
    exact ⟨.checkRanks true :: (latencyAndSync env cfg 0 size graph).trace,
      by simp [validateAndWireup, hc]⟩
  | false =>
    exact ⟨[.checkRanks false, .fatal 1], by simp [validateAndWireup, hc]⟩

theorem do_graph_wireup_exports (graph : ConfigGraph) (cfg : Config) (rank : Nat)
    (min_part : SimTime_t) (h : cfg.dump_config_graph ≠ "" ∨ cfg.output_dot ≠ "") :
    (do_graph_wireup graph cfg rank min_part).any Event.isExport = true := by
  simp only [do_graph_wireup]
  rcases h with h | h
  · rw [if_pos h]
    simp [Event.isExport]
  · rw [if_pos h]
    simp [Event.isExport]

theorem setup_completed_rank0 (env : Env) (cfg : Config) (size : Nat)
    (hdone : (setup env cfg 0 size).outcome = .completed) :
    ∃ pre g m, (setup env cfg 0 size).trace = pre ++ do_graph_wireup g cfg 0 m := by
  rcases hbp : buildAndPartition env cfg 0 size with ⟨tr, res⟩
  cases res with
  | error code =>
    rw [setup_trace_error env cfg 0 size tr code hbp] at hdone
    cases hdone
  | ok graph =>
    rw [setup_trace_ok env cfg 0 size tr graph hbp] at hdone ⊢
    simp only at hdone
    by_cases hc : graph.checkRanks size = true
    · by_cases hs : 1 < size
      · cases hm : computeMinPart graph with
        | none =>
          simp [validateAndWireup, hc, latencyAndSync, hs, hm] at hdone
        | some m =>
          refine ⟨tr ++ dump_partition cfg 0 ++ [.checkRanks true, .broadcast .min_part,
            .broadcast .graph, .broadcast .keyMap, .broadcast .keyMapReverse,
            .broadcast .nextKeyID, .broadcast .cfg], graph, m, ?_⟩
          simp [validateAndWireup, hc, latencyAndSync, hs, hm, syncAndWireup]
      · refine ⟨tr ++ dump_partition cfg 0 ++ [.checkRanks true], graph, NO_BOUND, ?_⟩
        simp [validateAndWireup, hc, latencyAndSync, hs, syncAndWireup]
    · simp [validateAndWireup, hc] at hdone

/-- C14, as stated, fails: on one rank, with a partition report path and a graph
export path configured, both files are written, the partition report is written
before the graph export, and no graph export is written before the report. -/
theorem C14_export_not_before_report :
    bothDumpsConfig.dump_component_graph_file ≠ ""
      ∧ bothDumpsConfig.dump_config_graph ≠ ""
      ∧ (setup sampleEnv bothDumpsConfig 0 1).trace =
          [.build, .checkForStructuralErrors false, .setComponentRanks 0,
           .dump_partition "part.txt", .checkRanks true, .dumpToFile "graph.txt" false,
           .performWireUp (latencyExample.setComponentRanks 0) 0 NO_BOUND]
      ∧ occursBefore Event.isExport Event.isReport
          (setup sampleEnv bothDumpsConfig 0 1).trace = false
      ∧ occursBefore Event.isReport Event.isExport
          (setup sampleEnv bothDumpsConfig 0 1).trace = true := by
  decide

/-- C14, amended. In no run is a graph export written before the partition
report; on rank 0, when a partition report path is configured and a graph export
is written, the partition report is written before it; and a run on rank 0 that
completes with a graph export path configured does write the export. -/
theorem C14_report_before_export (env : Env) (cfg : Config) (rank size : Nat) :
    occursBefore Event.isExport Event.isReport (setup env cfg rank size).trace = false
      ∧ (rank = 0 → cfg.dump_component_graph_file ≠ "" →
          (setup env cfg rank size).trace.any Event.isExport = true →
          occursBefore Event.isReport Event.isExport (setup env cfg rank size).trace = true)
      ∧ (rank = 0 → (cfg.dump_config_graph ≠ "" ∨ cfg.output_dot ≠ "") →
          (setup env cfg rank size).outcome = .completed →
          (setup env cfg rank size).trace.any Event.isExport = true) := by
  have hbuild := buildAndPartition_no_export env cfg rank size
  refine ⟨?_, ?_, ?_⟩
  · rcases hbp : buildAndPartition env cfg rank size with ⟨tr, res⟩
    rw [hbp] at hbuild
    cases res with
    | error code =>
      rw [setup_trace_error env cfg rank size tr code hbp]
      exact occursBefore_of_no_first _ _ _ hbuild
    | ok graph =>
      rw [setup_trace_ok env cfg rank size tr graph hbp]
      obtain ⟨P, W, hPW, hP, hW⟩ := validateAndWireup_split env cfg rank size graph
      simp only [hPW, occursBefore_append, occursBefore_of_no_first _ _ _ hbuild,
        occursBefore_of_no_first _ _ _ hP, occursBefore_of_no_second _ _ _ hW]
      simp only at hbuild
      simp [hbuild, hP, hW]
  · intro hr hreport hexp
    subst hr
    rcases hbp : buildAndPartition env cfg 0 size with ⟨tr, res⟩
    rw [hbp] at hbuild
    simp only at hbuild
    cases res with
    | error code =>
      rw [setup_trace_error env cfg 0 size tr code hbp] at hexp
      simp only at hexp
      rw [hbuild] at hexp
      cases hexp
    | ok graph =>
      rw [setup_trace_ok env cfg 0 size tr graph hbp] at hexp ⊢
      obtain ⟨rest, hrest⟩ := validateAndWireup_rank0_head env cfg size graph
      have hdump : dump_partition cfg 0 = [.dump_partition cfg.dump_component_graph_file] := by
        simp [dump_partition, hreport]
      simp only [hrest, hdump, List.any_append, hbuild, Bool.false_or, List.any_cons,
        List.any_nil, Bool.or_false] at hexp ⊢
      have hrest2 : rest.any Event.isExport = true := by
        simpa [Event.isExport] using hexp
      simp only [occursBefore_append, occursBefore, Event.isReport, hrest2, List.singleton_append]
      simp
  · intro hr hexport hdone
    subst hr
    obtain ⟨pre, g, m, htrace⟩ := setup_completed_rank0 env cfg size hdone
    rw [htrace, List.any_append, do_graph_wireup_exports g cfg 0 m hexport, Bool.or_true]

/-- Witness for C14, amended: one rank with both paths configured. -/
theorem C14_report_before_export_witness :
    occursBefore Event.isExport Event.isReport (setup sampleEnv bothDumpsConfig 0 1).trace = false
      ∧ occursBefore Event.isReport Event.isExport
          (setup sampleEnv bothDumpsConfig 0 1).trace = true :=
  ⟨(C14_report_before_export sampleEnv bothDumpsConfig 0 1).1,
    (C14_report_before_export sampleEnv bothDumpsConfig 0 1).2.1 rfl (by decide) (by decide)⟩

/-! ## Input file type -/

theorem selectModel_unsupported (installPath : String) (cfg : Config)
    (hname : cfg.sdlfile ≠ "NONE") (hbad : unsupportedFileType cfg.sdlfile) :
    selectModel installPath cfg = .returned (-1) := by
  rcases hbad with hlen | ⟨hxml, hsdl, hpy⟩
  · have hnot : ¬ cfg.sdlfile.length > 3 := by omega
    simp only [selectModel, hname, ne_eq, not_false_eq_true, if_true, hnot, if_false]
  · by_cases hlen : cfg.sdlfile.length > 3
    · simp only [selectModel, hname, ne_eq, not_false_eq_true, if_true, hlen, hxml, hsdl,
        or_self, if_false, hpy]
    · simp only [selectModel, hname, ne_eq, not_false_eq_true, if_true, hlen, if_false]

theorem selectModel_supported (installPath : String) (cfg : Config)
    (hgood : supportedFileType cfg.sdlfile) :
    ∃ cfg2, selectModel installPath cfg = .proceed cfg2 (some cfg2.sdlfile)
      ∧ cfg2.runMode = cfg.runMode := by
  obtain ⟨hlen, hext⟩ := hgood
  have hname : cfg.sdlfile ≠ "NONE" := by
    intro h
    rw [h] at hext
    revert hext
    decide
  by_cases hconv : fileExtension cfg.sdlfile = "xml" ∨ fileExtension cfg.sdlfile = "sdl"
  · exact ⟨{ cfg with model_options := cfg.sdlfile,
                      sdlfile := installPath ++ "/libexec/xmlToPython.py" },
      by simp only [selectModel, hname, ne_eq, not_false_eq_true, if_true, hlen, gt_iff_lt, hconv],
      rfl⟩
  · have hpy : fileExtension cfg.sdlfile = ".py" := by
      rcases hext with h | h | h
      · exact absurd (Or.inl h) hconv
      · exact absurd (Or.inr h) hconv
      · exact h
    exact ⟨cfg, by simp [selectModel, hname, hlen, hpy], rfl⟩

/-- C15. For an input file name other than "NONE" of an unsupported type (at most
three characters, or last three characters none of "xml", "sdl", ".py"), `main`
returns -1, which is not 0, and the only step recorded is the parsing of the
command line: no model description, no simulation and no graph is created.  For
a name of more than three characters that ends in "xml", "sdl" or ".py", the
selection creates the model description and goes on, and `main`, when the command
line was parsed, does not return from this check: the model description is
created and, in the modes `INIT` and `BOTH`, the simulation after it. -/
theorem C15_input_file_type (env : Env) (installPath : String) (cfg : Config)
    (rank size : Nat) :
    (cfg.sdlfile ≠ "NONE" → unsupportedFileType cfg.sdlfile →
        ∀ parseCmdLineFails,
          (main env installPath parseCmdLineFails cfg rank size).exit = .returned (-1)
            ∧ (-1 : Int) ≠ 0
            ∧ (main env installPath parseCmdLineFails cfg rank size).trace
                = [.parseCmdLine parseCmdLineFails])
      ∧ (supportedFileType cfg.sdlfile →
          ∃ cfg2, selectModel installPath cfg = .proceed cfg2 (some cfg2.sdlfile)
            ∧ (∀ code, (main env installPath false cfg rank size).exit ≠ .returned code)
            ∧ (∃ rest, (main env installPath false cfg rank size).trace =
                .parseCmdLine false :: .newModelDefinition cfg2.sdlfile :: rest)
            ∧ ((cfg.runMode = .INIT ∨ cfg.runMode = .BOTH) →
                MainEvent.createSimulation ∈
                  (main env installPath false cfg rank size).trace)) := by
  constructor
  · intro hname hbad parseCmdLineFails
    have hsel := selectModel_unsupported installPath cfg hname hbad
    cases parseCmdLineFails with
    | true => exact ⟨rfl, by decide, rfl⟩
    | false =>
      refine ⟨?_, by decide, ?_⟩ <;> simp [main, hsel]
  · intro hgood
    obtain ⟨cfg2, hsel, hmode⟩ := selectModel_supported installPath cfg hgood
    refine ⟨cfg2, hsel, ?_, ?_, ?_⟩
    · intro code
      by_cases hm : cfg2.runMode = .INIT ∨ cfg2.runMode = .BOTH
      · simp only [main, hsel, hm, if_true, Bool.false_eq_true, if_false]
        cases (setup env cfg2 rank size).outcome <;> simp
      · simp [main, hsel, hm]
    · by_cases hm : cfg2.runMode = .INIT ∨ cfg2.runMode = .BOTH
      · exact ⟨.createSimulation :: (setup env cfg2 rank size).trace.map .setup,
          by simp [main, hsel, hm]⟩
      · exact ⟨[], by simp only [main, hsel, hm, if_false, Bool.false_eq_true]⟩
    · intro hinit
      rw [← hmode] at hinit
      simp [main, hsel, hinit]

/-- Witness for C15: "model.txt" and the three-character name ".py" are
refused; "model.xml" is converted and "model.py" is taken as it is. -/
theorem C15_input_file_type_witness :
    unsupportedFileType "model.txt" ∧ unsupportedFileType ".py"
      ∧ supportedFileType "model.xml" ∧ supportedFileType "model.py"
      ∧ (main sampleEnv "/opt/sst" false { sdlfile := "model.txt" } 0 1).exit = .returned (-1)
      ∧ selectModel "/opt/sst" { sdlfile := "model.xml" } =
          .proceed { sdlfile := "/opt/sst/libexec/xmlToPython.py", model_options := "model.xml" }
            (some "/opt/sst/libexec/xmlToPython.py")
      ∧ (∀ code, (main sampleEnv "/opt/sst" false { sdlfile := "model.py" } 0 1).exit
          ≠ .returned code) :=
  ⟨by decide, by decide, by decide, by decide,
    ((C15_input_file_type sampleEnv "/opt/sst" { sdlfile := "model.txt" } 0 1).1
      (by decide) (by decide) false).1,
    by decide,
    ((C15_input_file_type sampleEnv "/opt/sst" { sdlfile := "model.py" } 0 1).2
      (by decide)).elim (fun _ h => h.2.1)⟩

/-! ## Insert, then look up -/

theorem fieldLayout_fieldsSeparate (bits : Nat) : (fieldLayout bits).fieldsSeparate := by
  have hpos : 0 < 2 ^ bits := Nat.two_pow_pos bits
  constructor
  · intro x hx
    have hx0 : x / 2 ^ bits = 0 := hx
    have hlt : x < 2 ^ bits := (Nat.div_eq_zero_iff hpos).mp hx0
    exact Nat.mod_eq_of_lt hlt
  · intro x
    show x % 2 ^ bits / 2 ^ bits = 0
    exact Nat.div_eq_of_lt (Nat.mod_lt x hpos)

theorem find_append_other (xs : List ComponentInfo) (r : ComponentInfo) (k : ComponentId_t)
    (hne : r.id ≠ k) :
    (xs ++ [r]).find? (fun x => x.id == k) = xs.find? (fun x => x.id == k) := by
  induction xs with
  | nil => simp [List.find?_cons, hne]
  | cons x xs ih =>
    by_cases hx : x.id = k
    · simp [List.find?_cons, hx]
    · have hb : (x.id == k) = false := by simp [hx]
      simp only [List.cons_append, List.find?_cons, hb, ih]

theorem find_append_fresh (xs : List ComponentInfo) (r : ComponentInfo)
    (hfresh : ∀ x ∈ xs, x.id ≠ r.id) :
    (xs ++ [r]).find? (fun x => x.id == r.id) = some r := by
  induction xs with
  | nil => simp [List.find?_cons]
  | cons x xs ih =>
    have hx : x.id ≠ r.id := hfresh x (List.mem_cons_self _ _)
    have hb : (x.id == r.id) = false := by simp [hx]
    simp only [List.cons_append, List.find?_cons, hb]
    exact ih (fun y hy => hfresh y (List.mem_cons_of_mem _ hy))

theorem insert_find_other (m : ComponentInfoMap) (r : ComponentInfo) (k : ComponentId_t)
    (hne : r.id ≠ k) (name type : String) :
    (m.insert r).find { id := k, name := name, type := type }
      = m.find { id := k, name := name, type := type } := by
  unfold ComponentInfoMap.insert
  split
  · rfl
  · exact find_append_other m.dataByID r k hne

/-- C16. For a layout whose two fields are separate, every registry and every
record `r`: when the subcomponent field of `r.id` is 0 and no registered record
has the identifier `r.id`, `getByID(r.id)` after `insert(r)` returns `r`; for
every key whose base ID field differs from `r.id`, `getByID` answers after
`insert(r)` as before; and when the subcomponent field of `r.id` is not 0 and no
record with the bare base ID of `r.id` is registered, `getByID(r.id)` after
`insert(r)` returns `NULL`, while with such a record `b` registered it returns
`b->findSubComponent(r.id)`. -/
theorem C16_insert_then_lookup (layout : IdLayout)
    (findSubComponent : ComponentInfo → ComponentId_t → Option ComponentInfo)
    (m : ComponentInfoMap) (r : ComponentInfo) (hlaw : layout.fieldsSeparate) :
    (layout.SUBCOMPONENT_ID_MASK r.id = 0 → (∀ x ∈ m.dataByID, x.id ≠ r.id) →
        (m.insert r).getByID layout findSubComponent r.id = some r)
      ∧ (∀ k, layout.COMPONENT_ID_MASK k ≠ r.id →
          (m.insert r).getByID layout findSubComponent k = m.getByID layout findSubComponent k)
      ∧ (layout.SUBCOMPONENT_ID_MASK r.id ≠ 0 →
          (∀ x ∈ m.dataByID, x.id ≠ layout.COMPONENT_ID_MASK r.id) →
          (m.insert r).getByID layout findSubComponent r.id = none)
      ∧ (layout.SUBCOMPONENT_ID_MASK r.id ≠ 0 → m.uniqueIds →
          ∀ b ∈ m.dataByID, b.id = layout.COMPONENT_ID_MASK r.id →
          (m.insert r).getByID layout findSubComponent r.id = findSubComponent b r.id) := by
  have hbare : layout.SUBCOMPONENT_ID_MASK r.id ≠ 0 → r.id ≠ layout.COMPONENT_ID_MASK r.id := by
    intro hsub heq
    apply hsub
    rw [heq]
    exact hlaw.2 r.id
  refine ⟨?_, ?_, ?_, ?_⟩
  · intro hsub hfresh
    have hmask : layout.COMPONENT_ID_MASK r.id = r.id := hlaw.1 r.id hsub
    have hany : m.dataByID.any (fun x => x.EqualsID r) = false := by
      rw [List.any_eq_false]
      intro x hx
      simp [ComponentInfo.EqualsID, hfresh x hx]
    have hins : m.insert r = { dataByID := m.dataByID ++ [r] } := by
      simp only [ComponentInfoMap.insert, hany, Bool.false_eq_true, if_false]
    have hfind : (m.insert r).find { id := layout.COMPONENT_ID_MASK r.id, name := "" }
        = some r := by
      rw [hins, hmask]
      exact find_append_fresh m.dataByID r hfresh
    simp only [ComponentInfoMap.getByID, hfind, hsub, ne_eq, not_true_eq_false, if_false]
  · intro k hk
    simp only [ComponentInfoMap.getByID]
    rw [insert_find_other m r _ (Ne.symm hk)]
  · intro hsub habsent
    have hfind : (m.insert r).find { id := layout.COMPONENT_ID_MASK r.id, name := "" }
        = none := by
      rw [insert_find_other m r _ (hbare hsub)]
      exact find_eq_none_of_absent m _ habsent
    simp only [ComponentInfoMap.getByID, hfind]
  · intro hsub hwf b hb hid
    have hfind : (m.insert r).find { id := layout.COMPONENT_ID_MASK r.id, name := "" }
        = some b := by
      rw [insert_find_other m r _ (hbare hsub)]
      exact find_eq_some_of_mem m.dataByID _ hwf b hb hid
    simp only [ComponentInfoMap.getByID, hfind, ne_eq, hsub, not_false_eq_true, if_true]

/-- Witness for C16: a fresh bare identifier is found after its insertion; a
record with base ID 5 and subcomponent ID 1 inserted into the empty registry is
not found under its identifier. -/
theorem C16_insert_then_lookup_witness :
    (fieldLayout 32).fieldsSeparate
      ∧ (registryExample.insert freshRecord).getByID (fieldLayout 32) sampleFindSubComponent
          freshRecord.id = some freshRecord
      ∧ (({} : ComponentInfoMap).insert subRecord).getByID (fieldLayout 32)
          sampleFindSubComponent subRecord.id = none :=
  ⟨fieldLayout_fieldsSeparate 32,
    (C16_insert_then_lookup (fieldLayout 32) sampleFindSubComponent registryExample freshRecord
      (fieldLayout_fieldsSeparate 32)).1 (by decide) (by decide),
    (C16_insert_then_lookup (fieldLayout 32) sampleFindSubComponent {} subRecord
      (fieldLayout_fieldsSeparate 32)).2.2.1 (by decide) (by decide)⟩

end SST
